import Mathlib

/-!
# KMS display posting layer of the gralloc DRM module

A shallow embedding of `gralloc_drm_kms.c`: mode selection (`find_mode`),
framebuffer binding (`gralloc_drm_bo_add_fb`, `gralloc_drm_bo_rm_fb`), vblank
pacing (`drm_kms_wait_for_post`), page flipping (`drm_kms_page_flip`), posting
(`gralloc_drm_bo_post`) and teardown (`gralloc_drm_fini_kms`).

Conventions of the embedding.

* A C `int` is an `Int`; where the source computes with it, the result is
  reduced with `wrap32` (two's complement, 32 bits). An `unsigned int` is a
  `Nat` reduced modulo `2^32`.
* A pointer to a buffer object is a `Nat`, `0` being `NULL`; buffer objects
  live in an association list from addresses to structures.
* Calls that leave the module (libdrm, the allocator backend) are appended to
  a trace, and their results are supplied by a `Driver`, a record of functions
  of the trace so far. Quantifying over the `Driver` quantifies over every
  behaviour of the kernel and of the backend.
* A function that dereferences a pointer returns `none` when the pointer is
  `NULL` or dangling.
-/

namespace GrallocDrm

/-! ## Constants of the headers the module includes -/

/-- Value of `INT_MAX` on the 32-bit `int` of the target. -/
def INT_MAX : Int := 2147483647

/-- Value of `EINVAL` in `errno.h`. -/
def EINVAL : Int := 22

/-- Flag `DRM_MODE_TYPE_PREFERRED` of `drm_mode.h`, `1 << 3`. -/
def DRM_MODE_TYPE_PREFERRED : Nat := 8

/-- Result of a C `int` operation whose mathematical value is `x`: the value
wrapped to 32 bits, two's complement. -/
def wrap32 (x : Int) : Int := (x + 2147483648) % 4294967296 - 2147483648

/-! ## Mode selection -/

/-- The fields of `drmModeModeInfo` that `find_mode` reads. `hdisplay` and
`vdisplay` are `uint16_t`, `type` is `uint32_t`. -/
structure drmModeModeInfo where
  hdisplay : Nat
  vdisplay : Nat
  type : Nat
deriving DecidableEq, Repr

/-- What `property_get("debug.drm.mode", ...)` and the two `sscanf` calls of
`find_mode` deliver. -/
inductive ModeProperty where
  /-- The property is not set: `property_get` returns 0. -/
  | unset
  /-- The value parses as `<xres>x<yres>@<bpp>`: the first `sscanf` returns 3. -/
  | full (xres yres bpp : Int)
  /-- The first `sscanf` does not return 3, the second one returns 2. -/
  | res (xres yres : Int)
  /-- Neither `sscanf` succeeds. -/
  | malformed
deriving DecidableEq, Repr

/-- Value of `xres` after the property has been read. -/
def ModeProperty.xres : ModeProperty → Int
  | .full x _ _ => x
  | .res x _ => x
  | _ => 0

/-- Value of `yres` after the property has been read. -/
def ModeProperty.yres : ModeProperty → Int
  | .full _ y _ => y
  | .res _ y => y
  | _ => 0

/-- Value of `*bpp` after the property has been read. -/
def ModeProperty.bpp : ModeProperty → Int
  | .full _ _ b => b
  | _ => 0

/-- The `tmp` of the hinted branch of `find_mode`, computed in `int`. -/
def hint_dist (m : drmModeModeInfo) (xres yres : Int) : Int :=
  let dx := wrap32 ((m.hdisplay : Int) - xres)
  let dy := wrap32 ((m.vdisplay : Int) - yres)
  wrap32 (wrap32 (dx * dx) + wrap32 (dy * dy))

/-- The `for` loop of `find_mode` over the modes still to visit. `i` is the
index of the head of the list, `mode` the index chosen so far (`none` is
`NULL`), `dist` the running distance. -/
def find_mode_loop (xres yres : Int) :
    List drmModeModeInfo → Nat → Option Nat → Int → Option Nat
  | [], _, mode, _ => mode
  | m :: ms, i, mode, dist =>
    let tmp : Int :=
      if xres ≠ 0 ∧ yres ≠ 0 then hint_dist m xres yres
      else if m.type &&& DRM_MODE_TYPE_PREFERRED ≠ 0 then 0 else dist
    if tmp < dist then
      if tmp = 0 then some i
      else find_mode_loop xres yres ms (i + 1) (some i) tmp
    else find_mode_loop xres yres ms (i + 1) mode dist

/-- Embedding of `find_mode`: the index into `connector->modes` of the mode
returned, and the value left in `*bpp`. -/
def find_mode (prop : ModeProperty) (modes : List drmModeModeInfo) : Nat × Int :=
  let mode := find_mode_loop prop.xres prop.yres modes 0 none INT_MAX
  let idx := match mode with
    | some i => i
    | none => 0
  (idx, Int.tdiv prop.bpp 8)

/-- Squared distance of a mode to a resolution, over the integers. -/
def sqdist (m : drmModeModeInfo) (xres yres : Int) : Int :=
  ((m.hdisplay : Int) - xres) ^ 2 + ((m.vdisplay : Int) - yres) ^ 2

/-- Index `i` names the first mode of `modes` that minimises `d`. -/
def FirstMin (modes : List drmModeModeInfo) (d : drmModeModeInfo → Int) (i : Nat) : Prop :=
  ∃ m, modes[i]? = some m ∧ (∀ m' ∈ modes, d m ≤ d m') ∧
    ∀ j mj, j < i → modes[j]? = some mj → d m < d mj

/-- The mode carries the preferred flag. -/
def is_preferred (m : drmModeModeInfo) : Prop := m.type &&& DRM_MODE_TYPE_PREFERRED ≠ 0

instance (m : drmModeModeInfo) : Decidable (is_preferred m) := by
  unfold is_preferred; infer_instance


/-- Invariant of the loop of `find_mode` after the modes `pre` were visited. -/
def LoopInv (d : drmModeModeInfo → Int) (pre : List drmModeModeInfo)
    (mode : Option Nat) (dist : Int) : Prop :=
  (∀ m ∈ pre, dist ≤ d m) ∧
  match mode with
  | none => dist = INT_MAX
  | some k => ∃ m, pre[k]? = some m ∧ d m = dist ∧
      ∀ j mj, j < k → pre[j]? = some mj → dist < d mj

/-- What the loop of `find_mode` delivers on the whole list. -/
def LoopResult (d : drmModeModeInfo → Int) (modes : List drmModeModeInfo) :
    Option Nat → Prop
  | none => ∀ m ∈ modes, INT_MAX ≤ d m
  | some i => FirstMin modes d i


/-! ## Buffers, the display engine handle and the driver -/

/-- Mask `GRALLOC_USAGE_SW_WRITE_MASK` of `hardware/gralloc.h`. -/
def GRALLOC_USAGE_SW_WRITE_MASK : Nat := 0xF0

/-- Flag `GRALLOC_USAGE_HW_FB` of `hardware/gralloc.h`. -/
def GRALLOC_USAGE_HW_FB : Nat := 0x1000

/-- Request type `DRM_VBLANK_ABSOLUTE` of `xf86drm.h`. -/
def DRM_VBLANK_ABSOLUTE : Nat := 0x0

/-- Request type `DRM_VBLANK_RELATIVE` of `xf86drm.h`. -/
def DRM_VBLANK_RELATIVE : Nat := 0x1

/-- Request flag `DRM_VBLANK_NEXTONMISS` of `xf86drm.h`. -/
def DRM_VBLANK_NEXTONMISS : Nat := 0x10000000

/-- Request flag `DRM_VBLANK_SECONDARY` of `xf86drm.h`. -/
def DRM_VBLANK_SECONDARY : Nat := 0x20000000

/-- Modelled from the spec: the enumeration `DRM_SWAP_*` of `gralloc_drm_priv.h`,
which is not among the sources. The spec names the four swap modes Flip, Copy,
SetCrtc and NoOp; every value the `switch` statements send to `default` is
`DRM_SWAP_NOOP` here. -/
inductive swap_mode_t where
  | DRM_SWAP_NOOP
  | DRM_SWAP_FLIP
  | DRM_SWAP_COPY
  | DRM_SWAP_SETCRTC
deriving DecidableEq, Repr

export swap_mode_t (DRM_SWAP_NOOP DRM_SWAP_FLIP DRM_SWAP_COPY DRM_SWAP_SETCRTC)

/-- Modelled from the spec: `struct gralloc_drm_handle_t` of `gralloc_drm_handle.h`,
which is not among the sources; the fields are those the module reads
(width, height, stride, pixel format, usage flags). -/
structure gralloc_drm_handle_t where
  width : Int
  height : Int
  format : Int
  usage : Nat
  stride : Int
deriving DecidableEq, Repr

/-- Modelled from the spec: `struct gralloc_drm_bo_t` of `gralloc_drm_priv.h`,
which is not among the sources. `fb_id` is the display-engine framebuffer id,
0 when the buffer is unbound; `handle` is held by value; the back-reference
`drm` is the one handle of the `World`. -/
structure gralloc_drm_bo_t where
  handle : gralloc_drm_handle_t
  fb_handle : Nat
  fb_id : Nat
deriving DecidableEq, Repr

/-- The fields of `drmModeRes` that the module reads. -/
structure drmModeRes where
  crtcs : List Nat
  connectors : List Nat
deriving DecidableEq, Repr

/-- Modelled from the spec: `struct gralloc_kms_plane` of `gralloc_drm_priv.h`,
which is not among the sources: the id of an overlay plane and its supported
native formats (`format_count` is the length of the list). -/
structure gralloc_kms_plane where
  id : Nat
  formats : List Nat
deriving DecidableEq, Repr

/-- Modelled from the spec: `struct gralloc_drm_t` of `gralloc_drm_priv.h`, the
display engine handle, which is not among the sources. The fields are those
`gralloc_drm_kms.c` reads and writes; the `int` flags are booleans;
`current_front` and `next_front` are buffer addresses, 0 for `NULL`;
`last_swap` is an `unsigned int`; `planes` is the array of `plane_count`
plane descriptors. The floating-point `xdpi` and `ydpi`, the clip rectangle
and the event context are left out. -/
structure gralloc_drm_t where
  resources : Option drmModeRes
  crtc_id : Nat
  connector_id : Nat
  swap_mode : swap_mode_t
  swap_interval : Int
  mode_quirk_vmwgfx : Bool
  mode_sync_flip : Bool
  vblank_secondary : Bool
  first_post : Bool
  current_front : Nat
  next_front : Nat
  waiting_flip : Bool
  last_swap : Nat
  mode : drmModeModeInfo
  fb_format : Int
  planes : List gralloc_kms_plane
deriving DecidableEq, Repr

/-- A call that leaves the module, with the arguments that vary. -/
inductive DrvCall where
  /-- `drmModeSetCrtc(fd, crtc_id, fb_id, 0, 0, &connector_id, 1, &mode)`. -/
  | SetCrtc (crtc_id fb_id connector_id : Nat)
  /-- `drmModeDirtyFB(fd, fb_id, &clip, 1)`. -/
  | DirtyFB (fb_id : Nat)
  /-- `drmModePageFlip(fd, crtc_id, fb_id, DRM_MODE_PAGE_FLIP_EVENT, drm)`. -/
  | PageFlip (crtc_id fb_id : Nat)
  /-- `drmHandleEvent(fd, &evctx)`. -/
  | HandleEvent
  /-- `drmWaitVBlank(fd, &vbl)` with `vbl.request.type` and `vbl.request.sequence`. -/
  | WaitVBlank (type sequence : Nat)
  /-- `drv->copy(drv, dst, src, x1, y1, x2, y2)`. -/
  | Copy (dst src : Nat) (x1 y1 x2 y2 : Int)
  /-- `drmModeAddFB(fd, width, height, depth, bpp, stride, fb_handle, &fb_id)`. -/
  | AddFB (width height : Int) (depth bpp : Nat) (stride : Int) (fb_handle : Nat)
  /-- `drmModeRmFB(fd, fb_id)`. -/
  | RmFB (fb_id : Nat)
  /-- `gralloc_drm_bo_destroy(bo)`. -/
  | BoDestroy (bo : Nat)
  /-- `drmModeFreeResources(resources)`. -/
  | FreeResources
  /-- `drv->init_kms_features(drv, drm)`. -/
  | InitKmsFeatures
  /-- `gralloc_drm_bo_create(drm, width, height, format, usage)`. -/
  | BoCreate (width height : Nat) (format : Int) (usage : Nat)
deriving DecidableEq, Repr

/-- The buffer objects that are alive, by address. -/
abbrev Heap := List (Nat × gralloc_drm_bo_t)

/-- What is outside the module: the results of the libdrm calls, as functions
of the trace up to and including the call, and the two functions of the
repository that are not among the sources. `drmHandleEvent` gives the number
of flip-completion events the call dispatches to the registered handler;
`drmWaitVBlank` and `drmModeAddFB` give the return value and the value written
back (`vbl.reply.sequence`, the new framebuffer id). -/
structure Driver where
  drmModeSetCrtc : List DrvCall → Int
  drmModeDirtyFB : List DrvCall → Int
  drmModePageFlip : List DrvCall → Int
  drmHandleEvent : List DrvCall → Nat
  drmWaitVBlank : List DrvCall → Int × Nat
  drmModeAddFB : List DrvCall → Int × Nat
  gralloc_drm_get_bpp : Int → Nat
  gralloc_drm_bo_destroy : Nat → Heap → Heap

/-- The state the module works on. `drm_singleton` records whether the static
pointer of that name is set. -/
structure World where
  drm : gralloc_drm_t
  heap : Heap
  drm_singleton : Bool
  trace : List DrvCall
deriving DecidableEq, Repr

/-- Dereference of a buffer pointer. -/
def deref (heap : Heap) (p : Nat) : Option gralloc_drm_bo_t :=
  if p = 0 then none else heap.lookup p

/-! ## Framebuffer binding -/

/-- Embedding of `gralloc_drm_bo_add_fb` on the buffer structure and the trace. -/
def gralloc_drm_bo_add_fb (drv : Driver) (bo : gralloc_drm_bo_t) (trace : List DrvCall) :
    Int × gralloc_drm_bo_t × List DrvCall :=
  if bo.fb_id ≠ 0 then (0, bo, trace)
  else
    let bpp : Nat := (drv.gralloc_drm_get_bpp bo.handle.format * 8) % 256
    let tr := trace ++ [DrvCall.AddFB bo.handle.width bo.handle.height bpp bpp
      bo.handle.stride bo.fb_handle]
    let r := drv.drmModeAddFB tr
    if r.1 ≠ 0 then (r.1, bo, tr) else (0, { bo with fb_id := r.2 }, tr)

/-- Embedding of `gralloc_drm_bo_rm_fb` on the buffer structure and the trace. -/
def gralloc_drm_bo_rm_fb (bo : gralloc_drm_bo_t) (trace : List DrvCall) :
    gralloc_drm_bo_t × List DrvCall :=
  if bo.fb_id ≠ 0 then ({ bo with fb_id := 0 }, trace ++ [DrvCall.RmFB bo.fb_id])
  else (bo, trace)

/-! ## Presentation -/

/-- Embedding of `drm_kms_set_crtc`. -/
def drm_kms_set_crtc (drv : Driver) (w : World) (fb_id : Nat) : Int × World :=
  let tr := w.trace ++ [DrvCall.SetCrtc w.drm.crtc_id fb_id w.drm.connector_id]
  let ret := drv.drmModeSetCrtc tr
  if ret ≠ 0 then (ret, { w with trace := tr })
  else if w.drm.mode_quirk_vmwgfx then
    let tr2 := tr ++ [DrvCall.DirtyFB fb_id]
    (drv.drmModeDirtyFB tr2, { w with trace := tr2 })
  else (ret, { w with trace := tr })

/-- Embedding of `page_flip_handler`: acknowledge the last scheduled flip. -/
def page_flip_handler (drm : gralloc_drm_t) : gralloc_drm_t :=
  { drm with current_front := drm.next_front, next_front := 0 }

/-- The call `drmHandleEvent(drm->fd, &drm->evctx)`: libdrm runs the registered
`page_flip_handler` once for each flip-completion event it reads. -/
def drmHandleEvent (drv : Driver) (w : World) : World :=
  let tr := w.trace ++ [DrvCall.HandleEvent]
  { w with trace := tr, drm := Nat.iterate page_flip_handler (drv.drmHandleEvent tr) w.drm }

/-- Body of the `while (drm->next_front)` loop of `drm_kms_page_flip`. -/
def drm_kms_page_flip_body (drv : Driver) (w : World) : World :=
  let w1 := { w with drm := { w.drm with waiting_flip := true } }
  let w2 := drmHandleEvent drv w1
  let w3 := { w2 with drm := { w2.drm with waiting_flip := false } }
  if w3.drm.next_front ≠ 0 then
    { w3 with drm := { w3.drm with current_front := w3.drm.next_front, next_front := 0 } }
  else w3

/-- The `while (drm->next_front)` loop of `drm_kms_page_flip`. -/
def drm_kms_page_flip_loop (drv : Driver) (w : World) : World :=
  if w.drm.next_front ≠ 0 then
    drm_kms_page_flip_loop drv (drm_kms_page_flip_body drv w)
  else w
termination_by (if w.drm.next_front ≠ 0 then 1 else 0)
decreasing_by
  rename_i h
  have h0 : (drm_kms_page_flip_body drv w).drm.next_front = 0 := by
    unfold drm_kms_page_flip_body
    simp only []
    split
    · rfl
    · rename_i h2
      simpa using h2
  simp [h0, h]

/-- Embedding of `drm_kms_page_flip`; `bo = 0` is the flip to `NULL`. -/
def drm_kms_page_flip (drv : Driver) (w : World) (bo : Nat) : Option (Int × World) :=
  let w1 := drm_kms_page_flip_loop drv w
  if bo = 0 then some (0, w1)
  else
    match deref w1.heap bo with
    | none => none
    | some b =>
      let tr := w1.trace ++ [DrvCall.PageFlip w1.drm.crtc_id b.fb_id]
      let ret := drv.drmModePageFlip tr
      if ret ≠ 0 then some (ret, { w1 with trace := tr })
      else some (ret, { w1 with trace := tr, drm := { w1.drm with next_front := bo } })

/-- The second half of `drm_kms_wait_for_post`, entered when
`current < target || !flip`: the blocking wait for an absolute sequence.
`tr1` is the trace after the query of the current vblank. -/
def drm_kms_wait_for_post_wait (drv : Driver) (w : World) (tr1 : List DrvCall)
    (flip current target : Nat) : World :=
  let secondary : Nat := if w.drm.vblank_secondary then DRM_VBLANK_SECONDARY else 0
  let nextonmiss : Nat := if flip = 0 then DRM_VBLANK_NEXTONMISS else 0
  let target : Nat := if flip = 0 ∧ target < current then current else target
  let tr2 := tr1 ++
    [DrvCall.WaitVBlank (DRM_VBLANK_ABSOLUTE ||| secondary ||| nextonmiss) target]
  let r2 := drv.drmWaitVBlank tr2
  if r2.1 ≠ 0 then { w with trace := tr2 }
  else
    { w with trace := tr2,
             drm := { w.drm with last_swap := (r2.2 % 4294967296 + flip) % 4294967296 } }

/-- Embedding of `drm_kms_wait_for_post`; `flip` is the `int` argument. -/
def drm_kms_wait_for_post (drv : Driver) (w : World) (flip : Int) : World :=
  if w.drm.mode_quirk_vmwgfx then w
  else
    let flip : Nat := if flip ≠ 0 then 1 else 0
    let secondary : Nat := if w.drm.vblank_secondary then DRM_VBLANK_SECONDARY else 0
    let tr1 := w.trace ++ [DrvCall.WaitVBlank (DRM_VBLANK_RELATIVE ||| secondary) 0]
    let r1 := drv.drmWaitVBlank tr1
    if r1.1 ≠ 0 then { w with trace := tr1 }
    else
      let current : Nat := r1.2 % 4294967296
      let target : Nat :=
        if w.drm.first_post then current
        else (((w.drm.last_swap : Int) + w.drm.swap_interval - (flip : Int)) % 4294967296).toNat
      if current < target ∨ flip = 0 then
        drm_kms_wait_for_post_wait drv w tr1 flip current target
      else
        { w with trace := tr1,
                 drm := { w.drm with last_swap := (current + flip) % 4294967296 } }

/-- The first-post branch of `gralloc_drm_bo_post`, `b` being `*bo`. -/
def gralloc_drm_bo_post_first (drv : Driver) (w : World) (bo : Nat) (b : gralloc_drm_bo_t) :
    Option (Int × World) :=
  let dst : Nat := if w.drm.next_front ≠ 0 then w.drm.next_front else w.drm.current_front
  let w1 : World :=
    if w.drm.swap_mode = DRM_SWAP_COPY then
      { w with trace := w.trace ++ [DrvCall.Copy dst bo 0 0 b.handle.width b.handle.height] }
    else w
  let bo1 : Nat := if w.drm.swap_mode = DRM_SWAP_COPY then dst else bo
  match deref w1.heap bo1 with
  | none => none
  | some b1 =>
    let r := drm_kms_set_crtc drv w1 b1.fb_id
    if r.1 = 0 then
      some (r.1, { r.2 with drm := { r.2.drm with
        first_post := false,
        current_front := bo1,
        next_front := if r.2.drm.next_front = bo1 then 0 else r.2.drm.next_front } })
    else some r

/-- The `DRM_SWAP_FLIP` case of `gralloc_drm_bo_post`. -/
def gralloc_drm_bo_post_flip (drv : Driver) (w : World) (bo : Nat) : Option (Int × World) :=
  let w1 := if w.drm.swap_interval > 1 then drm_kms_wait_for_post drv w 1 else w
  match drm_kms_page_flip drv w1 bo with
  | none => none
  | some (ret, w2) =>
    if w2.drm.next_front ≠ 0 then
      if w2.drm.mode_sync_flip then
        (drm_kms_page_flip drv w2 0).map fun r => (ret, r.2)
      else
        match deref w2.heap w2.drm.current_front with
        | none => none
        | some cf =>
          if cf.handle.usage &&& GRALLOC_USAGE_SW_WRITE_MASK ≠ 0 then
            (drm_kms_page_flip drv w2 0).map fun r => (ret, r.2)
          else some (ret, w2)
    else some (ret, w2)

/-- The `DRM_SWAP_COPY` case of `gralloc_drm_bo_post`, `b` being `*bo`. -/
def gralloc_drm_bo_post_copy (drv : Driver) (w : World) (bo : Nat) (b : gralloc_drm_bo_t) :
    Option (Int × World) :=
  let w1 := drm_kms_wait_for_post drv w 0
  let w2 : World := { w1 with trace := w1.trace ++
    [DrvCall.Copy w1.drm.current_front bo 0 0 b.handle.width b.handle.height] }
  if w2.drm.mode_quirk_vmwgfx then
    match deref w2.heap w2.drm.current_front with
    | none => none
    | some cf => some (0, { w2 with trace := w2.trace ++ [DrvCall.DirtyFB cf.fb_id] })
  else some (0, w2)

/-- The `DRM_SWAP_SETCRTC` case of `gralloc_drm_bo_post`, `b` being `*bo`. -/
def gralloc_drm_bo_post_setcrtc (drv : Driver) (w : World) (bo : Nat) (b : gralloc_drm_bo_t) :
    Option (Int × World) :=
  let w1 := drm_kms_wait_for_post drv w 0
  let r := drm_kms_set_crtc drv w1 b.fb_id
  some (r.1, { r.2 with drm := { r.2.drm with current_front := bo } })

/-- Embedding of `gralloc_drm_bo_post`. The result is `none` when the call
dereferences a null or dangling buffer pointer. -/
def gralloc_drm_bo_post (drv : Driver) (w : World) (bo : Nat) : Option (Int × World) :=
  match deref w.heap bo with
  | none => none
  | some b =>
    if b.fb_id = 0 ∧ w.drm.swap_mode ≠ DRM_SWAP_COPY then some (-EINVAL, w)
    else if w.drm.first_post then gralloc_drm_bo_post_first drv w bo b
    else
      match w.drm.swap_mode with
      | DRM_SWAP_FLIP => gralloc_drm_bo_post_flip drv w bo
      | DRM_SWAP_COPY => gralloc_drm_bo_post_copy drv w bo b
      | DRM_SWAP_SETCRTC => gralloc_drm_bo_post_setcrtc drv w bo b
      | DRM_SWAP_NOOP => some (0, w)

/-! ## Teardown -/

/-- Embedding of `gralloc_drm_fini_kms`. -/
def gralloc_drm_fini_kms (drv : Driver) (w : World) : Option World :=
  let r : Option World :=
    match w.drm.swap_mode with
    | DRM_SWAP_FLIP => (drm_kms_page_flip drv w 0).map fun r => r.2
    | DRM_SWAP_COPY =>
      if w.drm.current_front ≠ 0 then
        some { w with
          trace := w.trace ++ [DrvCall.BoDestroy w.drm.current_front],
          heap := drv.gralloc_drm_bo_destroy w.drm.current_front w.heap,
          drm := { w.drm with current_front := 0 } }
      else if w.drm.next_front ≠ 0 then
        some { w with
          trace := w.trace ++ [DrvCall.BoDestroy w.drm.next_front],
          heap := drv.gralloc_drm_bo_destroy w.drm.next_front w.heap,
          drm := { w.drm with next_front := 0 } }
      else some { w with drm := { w.drm with next_front := 0 } }
    | _ => some w
  r.map fun w1 =>
    let w2 : World :=
      if w1.drm.resources.isSome then
        { w1 with trace := w1.trace ++ [DrvCall.FreeResources],
                  drm := { w1.drm with resources := none } }
      else w1
    { w2 with drm_singleton := false }

/-! ## Notions used to state the properties -/

/-- The buffer a first post presents: the caller's buffer, or under copy mode
the internal front buffer (`next_front` if non-null, else `current_front`). -/
def first_post_target (w : World) (bo : Nat) : Nat :=
  if w.drm.swap_mode = DRM_SWAP_COPY then
    if w.drm.next_front ≠ 0 then w.drm.next_front else w.drm.current_front
  else bo

/-- The framebuffer id a presentation call names, if the call is one. -/
def DrvCall.presented_fb : DrvCall → Option Nat
  | .SetCrtc _ fb _ => some fb
  | .DirtyFB fb => some fb
  | .PageFlip _ fb => some fb
  | _ => none

/-- States of a flip-mode handle reachable from a freshly initialised one
(first-post flag set, no front buffers) through calls of `gralloc_drm_bo_post`;
flip-completion events are delivered inside the calls, as `drv` decides. -/
inductive FlipReachable (drv : Driver) : World → Prop where
  | init (w : World) : w.drm.swap_mode = DRM_SWAP_FLIP → w.drm.first_post = true →
      w.drm.current_front = 0 → w.drm.next_front = 0 → FlipReachable drv w
  | post (w w1 : World) (bo : Nat) (ret : Int) : FlipReachable drv w →
      gralloc_drm_bo_post drv w bo = some (ret, w1) → FlipReachable drv w1

/-- A driver that accepts every call, delivers one flip completion per event
drain and counts vblanks with the length of the trace. -/
def sample_driver : Driver where
  drmModeSetCrtc := fun _ => 0
  drmModeDirtyFB := fun _ => 0
  drmModePageFlip := fun _ => 0
  drmHandleEvent := fun _ => 1
  drmWaitVBlank := fun t => (0, t.length)
  drmModeAddFB := fun t => (0, t.length + 1)
  gralloc_drm_get_bpp := fun _ => 4
  gralloc_drm_bo_destroy := fun p h => h.filter fun e => e.1 != p

/-- A driver like `sample_driver` whose event drains deliver two flip
completions. -/
def double_event_driver : Driver :=
  { sample_driver with drmHandleEvent := fun _ => 2 }

/-- A buffer of 1920x1080 with the given framebuffer id and usage flags. -/
def sample_bo (fb_id usage : Nat) : gralloc_drm_bo_t :=
  ⟨⟨1920, 1080, 5, usage, 1920⟩, 7, fb_id⟩

/-- A handle with the given swap mode, first-post flag and front buffers, no
quirk, no synchronised flips, swap interval 1, mode 1920x1080, 32-bit BGRA
format, no planes. -/
def sample_drm (mode : swap_mode_t) (first : Bool) (cur next : Nat) : gralloc_drm_t :=
  ⟨none, 3, 4, mode, 1, false, false, false, first, cur, next, false, 0, ⟨1920, 1080, 0⟩, 5, []⟩

/-- A world with three buffers: 1 and 2 are bound, 3 is not. -/
def sample_world (mode : swap_mode_t) (first : Bool) (cur next : Nat) : World :=
  ⟨sample_drm mode first cur next,
    [(1, sample_bo 11 0), (2, sample_bo 12 0), (3, sample_bo 0 0)], false, []⟩

/-- The flag `drm_kms_wait_for_post` adds to its requests on the secondary
vblank counter. -/
def vblank_secondary_flag (w : World) : Nat :=
  if w.drm.vblank_secondary then DRM_VBLANK_SECONDARY else 0

/-- The request by which `drm_kms_wait_for_post` reads the current vblank. -/
def vblank_query (w : World) : DrvCall :=
  DrvCall.WaitVBlank (DRM_VBLANK_RELATIVE ||| vblank_secondary_flag w) 0

/-- Value of the `unsigned int` expression `last_swap + swap_interval - flip`. -/
def pacing_target (w : World) (flip : Nat) : Nat :=
  (((w.drm.last_swap : Int) + w.drm.swap_interval - (flip : Int)) % 4294967296).toNat

/-- The buffer on screen once the pending flip, if any, has been retired:
`next_front` when a flip is pending, `current_front` otherwise. -/
def front_after_drain (w : World) : Nat :=
  if w.drm.next_front ≠ 0 then w.drm.next_front else w.drm.current_front

/-- The fields of the handle that neither pacing nor flipping writes. -/
def same_config (d1 d2 : gralloc_drm_t) : Prop :=
  d1.swap_mode = d2.swap_mode ∧ d1.first_post = d2.first_post ∧
  d1.mode_sync_flip = d2.mode_sync_flip ∧ d1.mode_quirk_vmwgfx = d2.mode_quirk_vmwgfx ∧
  d1.swap_interval = d2.swap_interval

/-- The world `sample_world` with synchronised flips required by the driver. -/
def sync_world (mode : swap_mode_t) (first : Bool) (cur next : Nat) : World :=
  { sample_world mode first cur next with
    drm := { sample_drm mode first cur next with mode_sync_flip := true } }

/-- The state after a first post of buffer 1 on a fresh flip-mode handle. -/
def first_posted_world : World :=
  { sample_world DRM_SWAP_FLIP false 1 0 with trace := [DrvCall.SetCrtc 3 11 4] }

/-- The state after a first post of buffer 1 and a post of buffer 2. -/
def flip_pending_world : World :=
  { sample_world DRM_SWAP_FLIP false 1 2 with
    trace := [DrvCall.SetCrtc 3 11 4, DrvCall.PageFlip 3 12] }

/-- The internal front buffer of copy mode: before the first post the buffer
parked in `next_front` (else `current_front`), afterwards `current_front`. -/
def copy_front (w : World) : Nat :=
  if w.drm.first_post then
    if w.drm.next_front ≠ 0 then w.drm.next_front else w.drm.current_front
  else w.drm.current_front

/-- The `drmModeFreeResources` call of teardown, made when resources are held. -/
def free_resources_calls (w : World) : List DrvCall :=
  if w.drm.resources.isSome then [DrvCall.FreeResources] else []

/-! ## Mode setting at initialisation -/

/-- Value of `HAL_PIXEL_FORMAT_RGB_565` in `system/graphics.h`. -/
def HAL_PIXEL_FORMAT_RGB_565 : Int := 4

/-- Value of `HAL_PIXEL_FORMAT_BGRA_8888` in `system/graphics.h`. -/
def HAL_PIXEL_FORMAT_BGRA_8888 : Int := 5

/-- Value of `DRM_MODE_CONNECTED` in `xf86drmMode.h`. -/
def DRM_MODE_CONNECTED : Nat := 1

/-- The fields of `drmModeConnector` that the module reads; `count_modes` and
`count_encoders` are the lengths of the lists. -/
structure drmModeConnector where
  connector_id : Nat
  connection : Nat
  modes : List drmModeModeInfo
  encoders : List Nat
deriving DecidableEq, Repr

/-- The field of `drmModeEncoder` that the module reads, a `uint32_t` mask. -/
structure drmModeEncoder where
  possible_crtcs : Nat
deriving DecidableEq, Repr

/-- The fields of `drmModePlane` that the module reads; `count_formats` is the
length of `formats`, `possible_crtcs` is a `uint32_t` mask. -/
structure drmModePlane where
  plane_id : Nat
  possible_crtcs : Nat
  formats : List Nat
deriving DecidableEq, Repr

/-- Value of `1 << i` as it meets a `uint32_t` mask: bit `i` for `i < 32`. For
`i ≥ 32` the shift is undefined in C; the embedding takes 0, so that no bit of
a 32-bit mask is selected. -/
def crtc_bit (i : Nat) : Nat := (1 <<< i) % 4294967296

/-- What initialisation asks of its surroundings: the operator hint
`debug.drm.mode` as parsed, the answers of the libdrm queries (pure queries,
not entered in the trace), the value of `errno` and the success of the
allocations at the `i`-th plane, the backend hook `drv->init_kms_features`
(for the omap backend, `omap_init_kms_features`), and `gralloc_drm_bo_create`,
a function of the repository that is not among the sources, which returns the
address and the structure of the new buffer or `none` for `NULL`. -/
structure KmsEnv where
  property : ModeProperty
  drmModeGetResources : Option drmModeRes
  drmModeGetConnector : Nat → Option drmModeConnector
  drmModeGetEncoder : Nat → Option drmModeEncoder
  drmModeGetPlaneResources : Option (List Nat)
  drmModeGetPlane : Nat → Option drmModePlane
  errno : Nat → Int
  calloc_ok : Nat → Bool
  realloc_ok : Nat → Bool
  init_kms_features : gralloc_drm_t → gralloc_drm_t
  gralloc_drm_bo_create : Heap → Nat → Nat → Int → Nat → Option (Nat × gralloc_drm_bo_t)

/-- The loop `for (i = 0; i < count_crtcs; i++) if (possible_crtcs & (1 << i)) break;`
of `drm_kms_init_with_connector`: the value of `i` after the loop. -/
def first_possible_crtc (possible_crtcs count_crtcs : Nat) : Nat :=
  ((List.range count_crtcs).find? fun i => decide (possible_crtcs &&& crtc_bit i ≠ 0)).getD
    count_crtcs

/-- The `switch (bpp)` of `drm_kms_init_with_connector`, on the bytes per pixel
that `find_mode` leaves in `bpp`. -/
def fb_format_of_bpp (bpp : Int) : Int :=
  if bpp = 2 then HAL_PIXEL_FORMAT_RGB_565 else HAL_PIXEL_FORMAT_BGRA_8888

/-- Embedding of `drm_kms_init_with_connector` on the handle. The result is
`none` when the call reads `connector->encoders[0]` of a connector without
encoders or dereferences a null `drm->resources`. -/
def drm_kms_init_with_connector (env : KmsEnv) (drm : gralloc_drm_t)
    (connector : drmModeConnector) : Option (Int × gralloc_drm_t) :=
  if connector.modes.length = 0 then some (-EINVAL, drm)
  else
    match connector.encoders.head? with
    | none => none
    | some eid =>
      match env.drmModeGetEncoder eid with
      | none => some (-EINVAL, drm)
      | some encoder =>
        match drm.resources with
        | none => none
        | some res =>
          let i := first_possible_crtc encoder.possible_crtcs res.crtcs.length
          if i = res.crtcs.length then some (-EINVAL, drm)
          else
            match res.crtcs[i]? with
            | none => none
            | some crtc =>
              let r := find_mode env.property connector.modes
              match connector.modes[r.1]? with
              | none => none
              | some mode =>
                some (0, { drm with
                  crtc_id := crtc,
                  connector_id := connector.connector_id,
                  mode := mode,
                  fb_format := fb_format_of_bpp r.2 })

/-- Embedding of `omap_init_kms_features` of `gralloc_drm_omap.c`. -/
def omap_init_kms_features (drm : gralloc_drm_t) : gralloc_drm_t :=
  { drm with
    fb_format :=
      if drm.fb_format = HAL_PIXEL_FORMAT_BGRA_8888 ∨ drm.fb_format = HAL_PIXEL_FORMAT_RGB_565
      then drm.fb_format else HAL_PIXEL_FORMAT_BGRA_8888,
    mode_sync_flip := true,
    swap_mode := DRM_SWAP_FLIP,
    swap_interval := 0,
    vblank_secondary := false }

/-- The copy-mode part of `drm_kms_init_features`: create the real front
buffer and bind it; park it in `next_front`, or fall back to set-crtc mode. -/
def drm_kms_init_features_copy (drv : Driver) (env : KmsEnv) (w : World) : World :=
  let tr := w.trace ++ [DrvCall.BoCreate w.drm.mode.hdisplay w.drm.mode.vdisplay
    w.drm.fb_format GRALLOC_USAGE_HW_FB]
  match env.gralloc_drm_bo_create w.heap w.drm.mode.hdisplay w.drm.mode.vdisplay
      w.drm.fb_format GRALLOC_USAGE_HW_FB with
  | none => { w with trace := tr, drm := { w.drm with swap_mode := DRM_SWAP_SETCRTC } }
  | some (front, b) =>
    let r := gralloc_drm_bo_add_fb drv b tr
    if r.1 ≠ 0 then
      { w with
        trace := r.2.2 ++ [DrvCall.BoDestroy front],
        heap := drv.gralloc_drm_bo_destroy front ((front, r.2.1) :: w.heap),
        drm := { w.drm with swap_mode := DRM_SWAP_SETCRTC } }
    else
      { w with
        trace := r.2.2,
        heap := (front, r.2.1) :: w.heap,
        drm := { w.drm with next_front := front } }

/-- Embedding of `drm_kms_init_features`. The registration of the event
handler and of the signal handlers is not represented. -/
def drm_kms_init_features (drv : Driver) (env : KmsEnv) (w : World) : World :=
  let w1 : World := { w with
    trace := w.trace ++ [DrvCall.InitKmsFeatures],
    drm := env.init_kms_features w.drm }
  if w1.drm.swap_mode = DRM_SWAP_FLIP then { w1 with drm_singleton := true }
  else if w1.drm.swap_mode = DRM_SWAP_COPY then drm_kms_init_features_copy drv env w1
  else w1

/-- The connector loop of `gralloc_drm_init_kms` over the connector ids still
to visit: whether a connector was accepted, and the handle. -/
def gralloc_drm_init_kms_loop (env : KmsEnv) :
    List Nat → gralloc_drm_t → Option (Bool × gralloc_drm_t)
  | [], drm => some (false, drm)
  | id :: ids, drm =>
    match env.drmModeGetConnector id with
    | none => gralloc_drm_init_kms_loop env ids drm
    | some connector =>
      if connector.connection = DRM_MODE_CONNECTED then
        match drm_kms_init_with_connector env drm connector with
        | none => none
        | some r =>
          if r.1 = 0 then some (true, r.2)
          else gralloc_drm_init_kms_loop env ids r.2
      else gralloc_drm_init_kms_loop env ids drm

/-- Embedding of `gralloc_drm_init_kms`. -/
def gralloc_drm_init_kms (drv : Driver) (env : KmsEnv) (w : World) : Option (Int × World) :=
  if w.drm.resources.isSome then some (0, w)
  else
    match env.drmModeGetResources with
    | none => some (-EINVAL, w)
    | some res =>
      match gralloc_drm_init_kms_loop env res.connectors
          { w.drm with resources := some res } with
      | none => none
      | some (false, drm1) =>
        some (-EINVAL, { w with
          trace := w.trace ++ [DrvCall.FreeResources],
          drm := { drm1 with resources := none } })
      | some (true, drm1) =>
        let w1 := drm_kms_init_features drv env { w with drm := drm1 }
        some (0, { w1 with drm := { w1.drm with first_post := true } })

/-- Embedding of `gralloc_drm_is_kms_initialized`. -/
def gralloc_drm_is_kms_initialized (drm : gralloc_drm_t) : Bool :=
  drm.resources.isSome

/-! ## Plane inventory -/

/-- The loop `for (order = 0; order < count_crtcs; order++) if (crtcs[order] == crtc_id) break;`
of `gralloc_kms_planes_init`: the value of `order` after the loop. -/
def crtc_order (crtc_id : Nat) : List Nat → Nat
  | [] => 0
  | c :: cs => if c = crtc_id then 0 else crtc_order crtc_id cs + 1

/-- Embedding of `gralloc_kms_plane_add`, called for the `i`-th plane. When
`realloc` fails the plane array is lost and `plane_count` is reset. The copy
loop runs over `(int) count_formats`, taken to be the length of the list. -/
def gralloc_kms_plane_add (env : KmsEnv) (i : Nat) (drm : gralloc_drm_t)
    (plane : drmModePlane) : Int × gralloc_drm_t :=
  if env.calloc_ok i = false then (env.errno i, drm)
  else
    let ptr : gralloc_kms_plane := ⟨plane.plane_id, plane.formats⟩
    if env.realloc_ok i = false then (env.errno i, { drm with planes := [] })
    else (0, { drm with planes := drm.planes ++ [ptr] })

/-- The plane loop of `gralloc_kms_planes_init` over the plane ids still to
visit, `i` being the index of the head. -/
def gralloc_kms_planes_init_loop (env : KmsEnv) (order : Nat) :
    List Nat → Nat → gralloc_drm_t → Int × gralloc_drm_t
  | [], _, drm => (0, drm)
  | id :: ids, i, drm =>
    match env.drmModeGetPlane id with
    | none => (env.errno i, drm)
    | some plane =>
      if plane.possible_crtcs &&& crtc_bit order ≠ 0 then
        let r := gralloc_kms_plane_add env i drm plane
        if r.1 ≠ 0 then r
        else gralloc_kms_planes_init_loop env order ids (i + 1) r.2
      else gralloc_kms_planes_init_loop env order ids (i + 1) drm

/-- Embedding of `gralloc_kms_planes_init`. -/
def gralloc_kms_planes_init (env : KmsEnv) (drm : gralloc_drm_t) : Int × gralloc_drm_t :=
  match env.drmModeGetResources with
  | none => (-EINVAL, drm)
  | some resources =>
    let order := crtc_order drm.crtc_id resources.crtcs
    if order = resources.crtcs.length then (-EINVAL, drm)
    else
      match env.drmModeGetPlaneResources with
      | none => (-EINVAL, drm)
      | some planes => gralloc_kms_planes_init_loop env order planes 0 drm

/-! ## The composer shim -/

/-- Flag `HWC_GEOMETRY_CHANGED` of `hardware/hwcomposer.h`. -/
def HWC_GEOMETRY_CHANGED : Nat := 1

/-- Composition type `HWC_FRAMEBUFFER` of `hardware/hwcomposer.h`. -/
def HWC_FRAMEBUFFER : Int := 0

/-- Composition type `HWC_OVERLAY` of `hardware/hwcomposer.h`. -/
def HWC_OVERLAY : Int := 1

/-- The fields of `hwc_layer_t` that matter to `hwc_prepare`. -/
structure hwc_layer_t where
  compositionType : Int
  flags : Nat
  handle : Nat
deriving DecidableEq, Repr

/-- The type `hwc_layer_list_t`; `numHwLayers` is the length of `hwLayers`. -/
structure hwc_layer_list_t where
  flags : Nat
  hwLayers : List hwc_layer_t
deriving DecidableEq, Repr

/-- Embedding of `hwc_prepare`, the same in `hwcomposer.c` and `hwcomposer.cpp`
up to logging: the return value and the list after the call; `none` is a null
list. -/
def hwc_prepare (list : Option hwc_layer_list_t) : Int × Option hwc_layer_list_t :=
  match list with
  | none => (0, none)
  | some l =>
    if l.flags &&& HWC_GEOMETRY_CHANGED ≠ 0 then
      (0, some { l with
        hwLayers := l.hwLayers.map fun layer =>
          { layer with compositionType := HWC_FRAMEBUFFER } })
    else (0, some l)

/-! ## Sample surroundings of initialisation -/

/-- An engine with CRTCs 21 and 22, one connected connector 31 with two modes
and encoder 41, which can drive the second CRTC, and three overlay planes; the
backend is the omap one; every allocation succeeds but the creation of a
front buffer. The operator hint is `prop`. -/
def sample_env (prop : ModeProperty) : KmsEnv where
  property := prop
  drmModeGetResources := some ⟨[21, 22], [31]⟩
  drmModeGetConnector := fun id =>
    if id = 31 then some ⟨31, DRM_MODE_CONNECTED, [⟨1920, 1080, 0⟩, ⟨1280, 720, 8⟩], [41]⟩
    else none
  drmModeGetEncoder := fun id => if id = 41 then some ⟨2⟩ else none
  drmModeGetPlaneResources := some [51, 52, 53]
  drmModeGetPlane := fun id =>
    if id = 51 then some ⟨51, 1, [100]⟩
    else if id = 52 then some ⟨52, 2, [200, 201]⟩
    else if id = 53 then some ⟨53, 3, [300]⟩
    else none
  errno := fun _ => 12
  calloc_ok := fun _ => true
  realloc_ok := fun _ => true
  init_kms_features := omap_init_kms_features
  gralloc_drm_bo_create := fun _ _ _ _ _ => none

/-- The engine of `sample_env` with an encoder that can drive no CRTC. -/
def dark_env : KmsEnv :=
  { sample_env .unset with drmModeGetEncoder := fun id => if id = 41 then some ⟨0⟩ else none }

/-- The connector 31 of `sample_env`. -/
def sample_connector : drmModeConnector :=
  ⟨31, DRM_MODE_CONNECTED, [⟨1920, 1080, 0⟩, ⟨1280, 720, 8⟩], [41]⟩

/-- The handle `sample_drm` holding the resources of `sample_env`. -/
def probing_drm : gralloc_drm_t :=
  { sample_drm DRM_SWAP_NOOP false 0 0 with resources := some ⟨[21, 22], [31]⟩ }

/-- The framebuffer format that mode selection derives from the operator
hint: the 16bpp RGB format for a bit depth whose eighth is 2, else 32-bit BGRA. -/
def hinted_fb_format : ModeProperty → Int
  | .full _ _ b => if 16 ≤ b ∧ b ≤ 23 then HAL_PIXEL_FORMAT_RGB_565 else HAL_PIXEL_FORMAT_BGRA_8888
  | _ => HAL_PIXEL_FORMAT_BGRA_8888

/-- The plane descriptor `gralloc_kms_plane_add` records for a plane. -/
def plane_descriptor (plane : drmModePlane) : gralloc_kms_plane :=
  ⟨plane.plane_id, plane.formats⟩

/-- The handle `sample_drm` after mode selection chose CRTC 22. -/
def chosen_drm : gralloc_drm_t :=
  { sample_drm DRM_SWAP_FLIP true 0 0 with crtc_id := 22, connector_id := 31 }

/-- No connected connector of the engine offers a mode together with an
encoder that can drive one of the CRTCs `crtcs`; a connected connector with a
mode lists at least one encoder. -/
def no_valid_display (env : KmsEnv) (res : drmModeRes) : Prop :=
  ∀ id ∈ res.connectors, ∀ c, env.drmModeGetConnector id = some c →
    c.connection = DRM_MODE_CONNECTED → c.modes ≠ [] →
      c.encoders ≠ [] ∧
      ∀ eid ∈ c.encoders, ∀ e, env.drmModeGetEncoder eid = some e →
        ∀ i, i < res.crtcs.length → e.possible_crtcs &&& crtc_bit i = 0

/-- No connector/encoder/CRTC combination with at least one mode exists: no
connected connector of the engine has a mode and an encoder whose
possible-CRTC mask selects one of the CRTCs `res.crtcs`. -/
def no_display_combination (env : KmsEnv) (res : drmModeRes) : Prop :=
  ∀ id ∈ res.connectors, ∀ c, env.drmModeGetConnector id = some c →
    c.connection = DRM_MODE_CONNECTED → c.modes ≠ [] →
      ∀ eid ∈ c.encoders, ∀ e, env.drmModeGetEncoder eid = some e →
        ∀ i, i < res.crtcs.length → e.possible_crtcs &&& crtc_bit i = 0

/-- The engine of `sample_env` whose connected connector 31 has its two modes
and an empty encoder list (`count_encoders` is 0). -/
def encoderless_env : KmsEnv :=
  { sample_env .unset with
    drmModeGetConnector := fun id =>
      if id = 31 then some ⟨31, DRM_MODE_CONNECTED, [⟨1920, 1080, 0⟩, ⟨1280, 720, 8⟩], []⟩
      else none }

/-- A driver like `sample_driver` whose dirty refresh fails. -/
def failing_refresh_driver : Driver :=
  { sample_driver with drmModeDirtyFB := fun _ => -1 }

/-- A driver like `sample_driver` whose vblank requests fail. -/
def failing_vblank_driver : Driver :=
  { sample_driver with drmWaitVBlank := fun _ => (-1, 0) }

/-- The world `sample_world` under the vmwgfx quirk. -/
def quirk_world (mode : swap_mode_t) (first : Bool) (cur next : Nat) : World :=
  { sample_world mode first cur next with
    drm := { sample_drm mode first cur next with mode_quirk_vmwgfx := true } }

/-- The world `sample_world` with swap interval 2. -/
def paced_world (mode : swap_mode_t) (first : Bool) (cur next : Nat) : World :=
  { sample_world mode first cur next with
    drm := { sample_drm mode first cur next with swap_interval := 2 } }

/-- The `flip` argument `gralloc_drm_bo_post` passes to `drm_kms_wait_for_post`:
1 in the flip branch, 0 in the copy and set-crtc branches. -/
def pacing_flip (w : World) : Int :=
  if w.drm.swap_mode = DRM_SWAP_FLIP then 1 else 0

/-- The pacing call `drm_kms_wait_for_post drv w flip` failed: it issued a
vblank request, and the last one it issued (the query of the current vblank,
or the blocking wait) was refused. -/
def pacing_failed (drv : Driver) (w : World) (flip : Int) : Prop :=
  (drm_kms_wait_for_post drv w flip).trace ≠ w.trace ∧
  (drv.drmWaitVBlank (drm_kms_wait_for_post drv w flip).trace).1 ≠ 0

/-- States reached by a successful first post followed by any number of calls
of `gralloc_drm_bo_post`, in any swap mode. -/
inductive AfterFirstPost (drv : Driver) : World → Prop where
  | first (w w1 : World) (bo : Nat) : w.drm.first_post = true →
      gralloc_drm_bo_post drv w bo = some (0, w1) → AfterFirstPost drv w1
  | next (w w1 : World) (bo : Nat) (ret : Int) : AfterFirstPost drv w →
      gralloc_drm_bo_post drv w bo = some (ret, w1) → AfterFirstPost drv w1

/-! # Properties -/

theorem wrap32_id (x : Int) (h1 : -2147483648 ≤ x) (h2 : x < 2147483648) : wrap32 x = x := by
  unfold wrap32; omega

theorem sqdist_nonneg (m : drmModeModeInfo) (x y : Int) : 0 ≤ sqdist m x y := by
  unfold sqdist; positivity

theorem hint_dist_eq (m : drmModeModeInfo) (x y : Int) (h : sqdist m x y ≤ INT_MAX) :
    hint_dist m x y = sqdist m x y := by
  unfold sqdist INT_MAX at h
  unfold hint_dist sqdist
  generalize (m.hdisplay : Int) - x = a at h ⊢
  generalize (m.vdisplay : Int) - y = b at h ⊢
  have ha1 : a ≤ 46340 := by nlinarith [sq_nonneg b, sq_nonneg (a - 46341)]
  have ha2 : -46340 ≤ a := by nlinarith [sq_nonneg b, sq_nonneg (a + 46341)]
  have hb1 : b ≤ 46340 := by nlinarith [sq_nonneg a, sq_nonneg (b - 46341)]
  have hb2 : -46340 ≤ b := by nlinarith [sq_nonneg a, sq_nonneg (b + 46341)]
  have haa : 0 ≤ a * a := mul_self_nonneg a
  have hbb : 0 ≤ b * b := mul_self_nonneg b
  have hs : a * a + b * b ≤ 2147483647 := by nlinarith
  simp only []
  rw [wrap32_id a (by omega) (by omega), wrap32_id b (by omega) (by omega),
    wrap32_id (a * a) (by omega) (by omega), wrap32_id (b * b) (by omega) (by omega),
    wrap32_id (a * a + b * b) (by omega) (by omega)]
  ring

theorem find_mode_loop_hint (x y : Int) (hx : x ≠ 0) (hy : y ≠ 0) :
    ∀ (ms pre : List drmModeModeInfo) (mode : Option Nat) (dist : Int),
      (∀ m ∈ ms, sqdist m x y ≤ INT_MAX) →
      LoopInv (fun m => sqdist m x y) pre mode dist →
      LoopResult (fun m => sqdist m x y) (pre ++ ms)
        (find_mode_loop x y ms pre.length mode dist) := by
  intro ms
  induction ms with
  | nil =>
    intro pre mode dist _ hinv
    obtain ⟨hall, hm⟩ := hinv
    simp only [find_mode_loop, List.append_nil]
    cases mode with
    | none =>
      simp only [LoopResult]
      intro m hmem
      have h1 : dist ≤ sqdist m x y := hall m hmem
      have h2 : dist = INT_MAX := hm
      show INT_MAX ≤ sqdist m x y
      omega
    | some k =>
      obtain ⟨m, hk, hd, hlt⟩ := hm
      exact ⟨m, hk, fun m' hm' => by simpa [hd] using hall m' hm',
        fun j mj hj hjk => by simpa [hd] using hlt j mj hj hjk⟩
  | cons m ms ih =>
    intro pre mode dist hb hinv
    obtain ⟨hall, hm⟩ := hinv
    have hbm : sqdist m x y ≤ INT_MAX := hb m (List.mem_cons_self _ _)
    have hbs : ∀ m' ∈ ms, sqdist m' x y ≤ INT_MAX :=
      fun m' h' => hb m' (List.mem_cons_of_mem _ h')
    have hlist : pre ++ m :: ms = (pre ++ [m]) ++ ms := by simp
    have hlen : pre.length + 1 = (pre ++ [m]).length := by simp
    have hpre : ∀ j mj, j < pre.length → ((pre ++ [m])[j]? = some mj ↔ pre[j]? = some mj) := by
      intro j mj hj
      rw [List.getElem?_append_left hj]
    simp only [find_mode_loop, hx, hy, ne_eq, not_false_eq_true, and_self, if_true,
      hint_dist_eq m x y hbm]
    by_cases hlt : sqdist m x y < dist
    · simp only [hlt, if_true]
      have hprelt : ∀ mj ∈ pre, sqdist m x y < sqdist mj x y :=
        fun mj hmj => lt_of_lt_of_le hlt (hall mj hmj)
      by_cases hz : sqdist m x y = 0
      · simp only [hz, if_true]
        refine ⟨m, by rw [List.getElem?_append_right (le_refl _)]; simp, ?_, ?_⟩
        · intro m' _
          simpa [hz] using sqdist_nonneg m' x y
        · intro j mj hj hjm
          rw [List.getElem?_append_left hj] at hjm
          exact hprelt mj (List.getElem?_mem hjm)
      · simp only [hz, if_false]
        rw [hlist, hlen]
        apply ih (pre ++ [m]) (some pre.length) (sqdist m x y) hbs
        refine ⟨?_, m, by simp, rfl, ?_⟩
        · intro m' hm'
          rcases List.mem_append.1 hm' with h | h
          · exact le_of_lt (hprelt m' h)
          · simp at h; subst h; exact le_refl _
        · intro j mj hj hjm
          rw [List.getElem?_append_left hj] at hjm
          exact hprelt mj (List.getElem?_mem hjm)
    · simp only [hlt, if_false]
      rw [hlist, hlen]
      apply ih (pre ++ [m]) mode dist hbs
      refine ⟨?_, ?_⟩
      · intro m' hm'
        rcases List.mem_append.1 hm' with h | h
        · exact hall m' h
        · simp at h; subst h; exact not_lt.1 hlt
      · cases mode with
        | none => exact hm
        | some k =>
          obtain ⟨mk, hk, hd, hfirst⟩ := hm
          have hklt : k < pre.length := (List.getElem?_eq_some.1 hk).1
          refine ⟨mk, (hpre k mk hklt).2 hk, hd, ?_⟩
          intro j mj hj hjm
          exact hfirst j mj hj ((hpre j mj (by omega)).1 hjm)

/-- C1, as amended. For a non-empty list of modes and a resolution hint with
non-zero width and height whose squared distance to every mode fits in an
`int` (is at most `INT_MAX`), `find_mode` returns a mode of minimal squared
distance to the hint, and the first such mode in enumeration order. -/
theorem find_mode_hint_first_min (prop : ModeProperty) (modes : List drmModeModeInfo)
    (hne : modes ≠ []) (hx : prop.xres ≠ 0) (hy : prop.yres ≠ 0)
    (hfit : ∀ m ∈ modes, sqdist m prop.xres prop.yres ≤ INT_MAX) :
    FirstMin modes (fun m => sqdist m prop.xres prop.yres) (find_mode prop modes).1 := by
  have h := find_mode_loop_hint prop.xres prop.yres hx hy modes [] none INT_MAX hfit
    ⟨by simp, rfl⟩
  simp only [List.nil_append, List.length_nil] at h
  unfold find_mode
  simp only []
  cases hr : find_mode_loop prop.xres prop.yres modes 0 none INT_MAX with
  | some i => rw [hr] at h; exact h
  | none =>
    rw [hr] at h
    simp only [LoopResult] at h
    show FirstMin modes (fun m => sqdist m prop.xres prop.yres) 0
    cases modes with
    | nil => exact absurd rfl hne
    | cons m0 ms =>
      refine ⟨m0, by simp, ?_, ?_⟩
      · intro m' hm'
        have h1 : sqdist m0 prop.xres prop.yres ≤ INT_MAX := hfit m0 (List.mem_cons_self _ _)
        have h2 : INT_MAX ≤ sqdist m' prop.xres prop.yres := h m' hm'
        show sqdist m0 prop.xres prop.yres ≤ sqdist m' prop.xres prop.yres
        omega
      · intro j mj hj
        omega

/-- C1, counterexample. With the hint 47700x1080 the squared distance of
1280x720 does not fit in an `int`; the wrapped value is negative and
`find_mode` returns 1280x720, although 1920x1080 is nearer to the hint. -/
theorem find_mode_hint_overflow :
    (find_mode (.res 47700 1080) [⟨1920, 1080, 0⟩, ⟨1280, 720, 0⟩]).1 = 1 ∧
    sqdist ⟨1920, 1080, 0⟩ 47700 1080 < sqdist ⟨1280, 720, 0⟩ 47700 1080 ∧
    ¬ FirstMin [⟨1920, 1080, 0⟩, ⟨1280, 720, 0⟩] (fun m => sqdist m 47700 1080)
      (find_mode (.res 47700 1080) [⟨1920, 1080, 0⟩, ⟨1280, 720, 0⟩]).1 := by
  refine ⟨by decide, by decide, ?_⟩
  rintro ⟨m, hm, hmin, -⟩
  have h1 : (find_mode (.res 47700 1080) [⟨1920, 1080, 0⟩, ⟨1280, 720, 0⟩]).1 = 1 := by decide
  rw [h1] at hm
  simp at hm
  subst hm
  have := hmin ⟨1920, 1080, 0⟩ (by simp)
  revert this
  decide

theorem find_mode_hint_first_min_witness :
    FirstMin [⟨1920, 1080, 0⟩, ⟨1280, 720, 0⟩, ⟨1024, 768, 0⟩]
      (fun m => sqdist m 1024 768)
      (find_mode (.res 1024 768) [⟨1920, 1080, 0⟩, ⟨1280, 720, 0⟩, ⟨1024, 768, 0⟩]).1 ∧
    (find_mode (.res 1024 768) [⟨1920, 1080, 0⟩, ⟨1280, 720, 0⟩, ⟨1024, 768, 0⟩]).1 = 2 :=
  ⟨find_mode_hint_first_min (.res 1024 768) [⟨1920, 1080, 0⟩, ⟨1280, 720, 0⟩, ⟨1024, 768, 0⟩]
    (by decide) (by decide) (by decide) (by decide), by decide⟩

theorem find_mode_loop_no_hint (x y : Int) (hno : ¬ (x ≠ 0 ∧ y ≠ 0)) :
    ∀ (ms : List drmModeModeInfo) (i : Nat),
      match find_mode_loop x y ms i none INT_MAX with
      | some k => ∃ m, i ≤ k ∧ ms[k - i]? = some m ∧ is_preferred m ∧
          ∀ j mj, j < k - i → ms[j]? = some mj → ¬ is_preferred mj
      | none => ∀ m ∈ ms, ¬ is_preferred m := by
  intro ms
  induction ms with
  | nil => intro i; simp [find_mode_loop]
  | cons m ms ih =>
    intro i
    by_cases hp : is_preferred m
    · have hp' : m.type &&& DRM_MODE_TYPE_PREFERRED ≠ 0 := hp
      simp only [find_mode_loop, hno, if_false, hp', ne_eq, not_false_eq_true, if_true]
      have : (0 : Int) < INT_MAX := by decide
      simp only [this, if_true]
      exact ⟨m, le_refl _, by simp, hp, fun j mj hj => by omega⟩
    · have hp' : ¬ (m.type &&& DRM_MODE_TYPE_PREFERRED ≠ 0) := hp
      simp only [find_mode_loop, hno, if_false, hp', lt_irrefl]
      have h := ih (i + 1)
      cases hr : find_mode_loop x y ms (i + 1) none INT_MAX with
      | none =>
        rw [hr] at h
        intro m' hm'
        rcases List.mem_cons.1 hm' with h' | h'
        · subst h'; exact hp
        · exact h m' h'
      | some k =>
        rw [hr] at h
        obtain ⟨mk, hik, hk, hpk, hfirst⟩ := h
        have hki : k - i = (k - (i + 1)) + 1 := by omega
        refine ⟨mk, by omega, ?_, hpk, ?_⟩
        · rw [hki, List.getElem?_cons_succ]; exact hk
        · intro j mj hj hjm
          cases j with
          | zero => simp at hjm; subst hjm; exact hp
          | succ j =>
            rw [List.getElem?_cons_succ] at hjm
            exact hfirst j mj (by omega) hjm

/-- C2. Without a resolution hint `find_mode` returns the first mode carrying
the preferred flag when some mode carries it, and the first mode of the list
otherwise. -/
theorem find_mode_no_hint_preferred (prop : ModeProperty) (modes : List drmModeModeInfo)
    (hne : modes ≠ []) (hno : prop.xres = 0 ∨ prop.yres = 0) :
    ∃ m, modes[(find_mode prop modes).1]? = some m ∧
      ((∃ m' ∈ modes, is_preferred m') →
        is_preferred m ∧
        ∀ j mj, j < (find_mode prop modes).1 → modes[j]? = some mj → ¬ is_preferred mj) ∧
      ((∀ m' ∈ modes, ¬ is_preferred m') → (find_mode prop modes).1 = 0) := by
  have hno' : ¬ (prop.xres ≠ 0 ∧ prop.yres ≠ 0) := by
    rintro ⟨h1, h2⟩; rcases hno with h | h <;> contradiction
  have h := find_mode_loop_no_hint prop.xres prop.yres hno' modes 0
  unfold find_mode
  cases hr : find_mode_loop prop.xres prop.yres modes 0 none INT_MAX with
  | some k =>
    rw [hr] at h
    obtain ⟨mk, -, hk, hpk, hfirst⟩ := h
    simp only [Nat.sub_zero] at hk hfirst
    refine ⟨mk, hk, fun _ => ⟨hpk, hfirst⟩, ?_⟩
    intro hnone
    exact absurd hpk (hnone mk (List.getElem?_mem hk))
  | none =>
    rw [hr] at h
    cases modes with
    | nil => exact absurd rfl hne
    | cons m0 ms =>
      refine ⟨m0, by simp, ?_, fun _ => rfl⟩
      rintro ⟨m', hm', hp⟩
      exact absurd hp (h m' hm')

theorem find_mode_no_hint_preferred_witness :
    (∃ m, [(⟨1920, 1080, 0⟩ : drmModeModeInfo), ⟨1280, 720, 8⟩][(find_mode .unset
        [⟨1920, 1080, 0⟩, ⟨1280, 720, 8⟩]).1]? = some m ∧
      ((∃ m' ∈ [(⟨1920, 1080, 0⟩ : drmModeModeInfo), ⟨1280, 720, 8⟩], is_preferred m') →
        is_preferred m ∧
        ∀ j mj, j < (find_mode .unset [⟨1920, 1080, 0⟩, ⟨1280, 720, 8⟩]).1 →
          [(⟨1920, 1080, 0⟩ : drmModeModeInfo), ⟨1280, 720, 8⟩][j]? = some mj →
          ¬ is_preferred mj) ∧
      ((∀ m' ∈ [(⟨1920, 1080, 0⟩ : drmModeModeInfo), ⟨1280, 720, 8⟩], ¬ is_preferred m') →
        (find_mode .unset [⟨1920, 1080, 0⟩, ⟨1280, 720, 8⟩]).1 = 0)) ∧
    (find_mode .unset [⟨1920, 1080, 0⟩, ⟨1280, 720, 8⟩]).1 = 1 :=
  ⟨find_mode_no_hint_preferred .unset [⟨1920, 1080, 0⟩, ⟨1280, 720, 8⟩] (by decide)
    (Or.inl rfl), by decide⟩

/-! ## The page-flip drain -/

theorem iterate_page_flip_handler (n : Nat) (d : gralloc_drm_t) :
    Nat.iterate page_flip_handler n d =
      if n = 0 then d
      else if n = 1 then { d with current_front := d.next_front, next_front := 0 }
      else { d with current_front := 0, next_front := 0 } := by
  induction n with
  | zero => rfl
  | succ n ih =>
    rw [Function.iterate_succ_apply', ih]
    rcases n with _ | _ | n <;> simp [page_flip_handler]

theorem page_flip_body_eq (drv : Driver) (w : World) (h : w.drm.next_front ≠ 0) :
    drm_kms_page_flip_body drv w =
      { w with
        trace := w.trace ++ [DrvCall.HandleEvent],
        drm := { w.drm with
          waiting_flip := false,
          current_front :=
            if drv.drmHandleEvent (w.trace ++ [DrvCall.HandleEvent]) ≤ 1
            then w.drm.next_front else 0,
          next_front := 0 } } := by
  unfold drm_kms_page_flip_body drmHandleEvent
  simp only [iterate_page_flip_handler]
  rcases hn : drv.drmHandleEvent (w.trace ++ [DrvCall.HandleEvent]) with _ | _ | n <;>
    simp [h]

theorem page_flip_loop_eq (drv : Driver) (w : World) :
    drm_kms_page_flip_loop drv w =
      if w.drm.next_front ≠ 0 then drm_kms_page_flip_body drv w else w := by
  rw [drm_kms_page_flip_loop]
  split
  · rename_i h
    rw [drm_kms_page_flip_loop, page_flip_body_eq drv w h]
    simp
  · rfl

/-! ## Posting -/

/-- C3. When the swap mode is not copy and the buffer has framebuffer id 0,
`gralloc_drm_bo_post` returns `-EINVAL` and the whole state (handle, buffers,
trace of driver calls) is what it was: no driver call is issued. -/
theorem post_missing_framebuffer (drv : Driver) (w : World) (bo : Nat) (b : gralloc_drm_bo_t)
    (hb : deref w.heap bo = some b) (hfb : b.fb_id = 0)
    (hmode : w.drm.swap_mode ≠ DRM_SWAP_COPY) :
    gralloc_drm_bo_post drv w bo = some (-EINVAL, w) := by
  unfold gralloc_drm_bo_post
  simp [hb, hfb, hmode]

theorem post_missing_framebuffer_witness :
    gralloc_drm_bo_post sample_driver (sample_world DRM_SWAP_FLIP true 0 0) 3 =
      some (-EINVAL, sample_world DRM_SWAP_FLIP true 0 0) :=
  post_missing_framebuffer sample_driver (sample_world DRM_SWAP_FLIP true 0 0) 3
    (sample_bo 0 0) (by decide) (by decide) (by decide)

theorem set_crtc_spec (drv : Driver) (w : World) (fb : Nat) :
    ∃ tail,
      (drm_kms_set_crtc drv w fb).2 =
        { w with trace := w.trace ++ DrvCall.SetCrtc w.drm.crtc_id fb w.drm.connector_id :: tail } ∧
      (tail = [] ∨ (w.drm.mode_quirk_vmwgfx = true ∧ tail = [DrvCall.DirtyFB fb])) ∧
      (w.drm.mode_quirk_vmwgfx = false →
        (drm_kms_set_crtc drv w fb).1 = drv.drmModeSetCrtc (drm_kms_set_crtc drv w fb).2.trace) := by
  unfold drm_kms_set_crtc
  simp only []
  by_cases h1 : drv.drmModeSetCrtc
      (w.trace ++ [DrvCall.SetCrtc w.drm.crtc_id fb w.drm.connector_id]) = 0
  · by_cases h2 : w.drm.mode_quirk_vmwgfx = true
    · exact ⟨[DrvCall.DirtyFB fb], by simp [h1, h2], Or.inr ⟨h2, rfl⟩, by simp [h2]⟩
    · exact ⟨[], by simp [h1, h2], Or.inl rfl, by simp [h1, h2]⟩
  · exact ⟨[], by simp [h1], Or.inl rfl, by simp [h1]⟩

theorem post_first_eq (drv : Driver) (w : World) (bo : Nat) (b : gralloc_drm_bo_t) :
    gralloc_drm_bo_post_first drv w bo b =
      match deref w.heap (first_post_target w bo) with
      | none => none
      | some b1 =>
        let r := drm_kms_set_crtc drv { w with trace := w.trace ++
          (if w.drm.swap_mode = DRM_SWAP_COPY then
            [DrvCall.Copy (first_post_target w bo) bo 0 0 b.handle.width b.handle.height]
          else []) } b1.fb_id
        if r.1 = 0 then
          some (r.1, { r.2 with drm := { r.2.drm with
            first_post := false,
            current_front := first_post_target w bo,
            next_front :=
              if r.2.drm.next_front = first_post_target w bo then 0
              else r.2.drm.next_front } })
        else some r := by
  unfold gralloc_drm_bo_post_first first_post_target
  by_cases hcopy : w.drm.swap_mode = DRM_SWAP_COPY
  · simp only [hcopy, if_true]
  · simp only [hcopy, if_false, List.append_nil]

/-- C4. A first post, in every swap mode, programs the CRTC directly: the calls
it issues are the backend copy (copy mode only), one `drmModeSetCrtc` naming
the framebuffer id of the presented buffer (under copy mode the internal front
buffer, otherwise the caller's buffer) and, under the vmwgfx quirk, the dirty
refresh; no page flip, event drain or vblank wait. When the result is 0 the
first-post flag is cleared, `current_front` is the presented buffer and
`next_front` is cleared if it was the presented buffer; otherwise the handle is
unchanged. Without the quirk the result is that of `drmModeSetCrtc`. -/
theorem first_post_programs_crtc (drv : Driver) (w : World) (bo : Nat)
    (b pb : gralloc_drm_bo_t)
    (hfirst : w.drm.first_post = true)
    (hb : deref w.heap bo = some b)
    (hpre : b.fb_id ≠ 0 ∨ w.drm.swap_mode = DRM_SWAP_COPY)
    (hpb : deref w.heap (first_post_target w bo) = some pb) :
    ∃ ret w1 tail,
      gralloc_drm_bo_post drv w bo = some (ret, w1) ∧
      w1.trace = (w.trace ++
          (if w.drm.swap_mode = DRM_SWAP_COPY then
            [DrvCall.Copy (first_post_target w bo) bo 0 0 b.handle.width b.handle.height]
          else [])) ++
        DrvCall.SetCrtc w.drm.crtc_id pb.fb_id w.drm.connector_id :: tail ∧
      (tail = [] ∨ (w.drm.mode_quirk_vmwgfx = true ∧ tail = [DrvCall.DirtyFB pb.fb_id])) ∧
      (w.drm.mode_quirk_vmwgfx = false →
        ret = drv.drmModeSetCrtc (w1.trace)) ∧
      w1.heap = w.heap ∧
      (ret = 0 → w1.drm = { w.drm with
        first_post := false,
        current_front := first_post_target w bo,
        next_front :=
          if w.drm.next_front = first_post_target w bo then 0 else w.drm.next_front }) ∧
      (ret ≠ 0 → w1.drm = w.drm) := by
  have hguard : ¬ (b.fb_id = 0 ∧ w.drm.swap_mode ≠ DRM_SWAP_COPY) := by
    rintro ⟨h1, h2⟩
    rcases hpre with h | h
    · exact h h1
    · exact h2 h
  unfold gralloc_drm_bo_post
  simp only [hb, hguard, if_false, hfirst, if_true]
  rw [post_first_eq]
  simp only [hpb]
  generalize hw0 : ({ w with trace := w.trace ++
      (if w.drm.swap_mode = DRM_SWAP_COPY then
        [DrvCall.Copy (first_post_target w bo) bo 0 0 b.handle.width b.handle.height]
      else []) } : World) = w0
  have hw0' := hw0.symm
  obtain ⟨tail, hst, htail, hret⟩ := set_crtc_spec drv w0 pb.fb_id
  have hdrm : w0.drm = w.drm := by rw [hw0']
  have hheap : w0.heap = w.heap := by rw [hw0']
  have htr : w0.trace = w.trace ++
      (if w.drm.swap_mode = DRM_SWAP_COPY then
        [DrvCall.Copy (first_post_target w bo) bo 0 0 b.handle.width b.handle.height]
      else []) := by rw [hw0']
  rw [hdrm] at htail hret
  by_cases h0 : (drm_kms_set_crtc drv w0 pb.fb_id).1 = 0
  · refine ⟨_, _, tail, by rw [if_pos h0], ?_, htail, ?_, ?_, ?_, ?_⟩
    · simp [hst, htr, hdrm]
    · intro hq
      have := hret hq
      rw [h0] at this ⊢
      simpa [hst] using this
    · simp [hst, hheap]
    · intro _
      simp [hst, hdrm]
    · intro hne; exact absurd h0 hne
  · refine ⟨_, _, tail, by rw [if_neg h0], ?_, htail, ?_, ?_, ?_, ?_⟩
    · simp [hst, htr, hdrm]
    · intro hq; exact hret hq
    · simp [hst, hheap]
    · intro h; exact absurd h h0
    · intro _
      simp [hst, hdrm]

theorem first_post_programs_crtc_witness :
    ∃ ret w1 tail,
      gralloc_drm_bo_post sample_driver (sample_world DRM_SWAP_COPY true 0 2) 1 = some (ret, w1) ∧
      w1.trace = ((sample_world DRM_SWAP_COPY true 0 2).trace ++
          (if (sample_world DRM_SWAP_COPY true 0 2).drm.swap_mode = DRM_SWAP_COPY then
            [DrvCall.Copy (first_post_target (sample_world DRM_SWAP_COPY true 0 2) 1) 1 0 0
              (sample_bo 11 0).handle.width (sample_bo 11 0).handle.height]
          else [])) ++
        DrvCall.SetCrtc (sample_world DRM_SWAP_COPY true 0 2).drm.crtc_id (sample_bo 12 0).fb_id
          (sample_world DRM_SWAP_COPY true 0 2).drm.connector_id :: tail ∧
      (tail = [] ∨ ((sample_world DRM_SWAP_COPY true 0 2).drm.mode_quirk_vmwgfx = true ∧
        tail = [DrvCall.DirtyFB (sample_bo 12 0).fb_id])) ∧
      ((sample_world DRM_SWAP_COPY true 0 2).drm.mode_quirk_vmwgfx = false →
        ret = sample_driver.drmModeSetCrtc (w1.trace)) ∧
      w1.heap = (sample_world DRM_SWAP_COPY true 0 2).heap ∧
      (ret = 0 → w1.drm = { (sample_world DRM_SWAP_COPY true 0 2).drm with
        first_post := false,
        current_front := first_post_target (sample_world DRM_SWAP_COPY true 0 2) 1,
        next_front :=
          if (sample_world DRM_SWAP_COPY true 0 2).drm.next_front =
              first_post_target (sample_world DRM_SWAP_COPY true 0 2) 1 then 0
          else (sample_world DRM_SWAP_COPY true 0 2).drm.next_front }) ∧
      (ret ≠ 0 → w1.drm = (sample_world DRM_SWAP_COPY true 0 2).drm) :=
  first_post_programs_crtc sample_driver (sample_world DRM_SWAP_COPY true 0 2) 1
    (sample_bo 11 0) (sample_bo 12 0) (by decide) (by decide) (by decide) (by decide)

/-! ## Vblank pacing -/

/-- C7. In a pacing call after the first post, without the vmwgfx quirk, whose
vblank query succeeds with sequence `C`: before a flip the target is
`last_swap + swap_interval - 1` (32-bit unsigned) and an absolute wait for the
target is issued exactly when `C` is below it; otherwise the target is
`last_swap + swap_interval` and an absolute wait with the next-on-miss flag is
always issued, for the maximum of the target and `C`. -/
theorem wait_for_post_targets (drv : Driver) (w : World) (C : Nat)
    (hfirst : w.drm.first_post = false) (hquirk : w.drm.mode_quirk_vmwgfx = false)
    (hquery : drv.drmWaitVBlank (w.trace ++ [vblank_query w]) = (0, C))
    (hC : C < 4294967296) :
    (∀ flip : Int, flip ≠ 0 →
      (drm_kms_wait_for_post drv w flip).trace =
        w.trace ++ [vblank_query w] ++
          (if C < pacing_target w 1 then
            [DrvCall.WaitVBlank (DRM_VBLANK_ABSOLUTE ||| vblank_secondary_flag w)
              (pacing_target w 1)]
          else [])) ∧
    (drm_kms_wait_for_post drv w 0).trace =
      w.trace ++ [vblank_query w,
        DrvCall.WaitVBlank
          (DRM_VBLANK_ABSOLUTE ||| vblank_secondary_flag w ||| DRM_VBLANK_NEXTONMISS)
          (max (pacing_target w 0) C)] := by
  have hmod : C % 4294967296 = C := Nat.mod_eq_of_lt hC
  have hq : drv.drmWaitVBlank (w.trace ++
      [DrvCall.WaitVBlank (DRM_VBLANK_RELATIVE |||
        (if w.drm.vblank_secondary then DRM_VBLANK_SECONDARY else 0)) 0]) = (0, C) := hquery
  constructor
  · intro flip hflip
    have hf : (if flip ≠ 0 then 1 else 0 : Nat) = 1 := if_pos hflip
    unfold drm_kms_wait_for_post drm_kms_wait_for_post_wait
    simp only [hf, hquirk, hq, hfirst, hmod, vblank_query, vblank_secondary_flag,
      pacing_target, Bool.false_eq_true, if_false, one_ne_zero, or_false, false_and,
      ne_eq, not_true_eq_false, not_false_eq_true, if_true, Nat.or_zero]
    by_cases hlt : C < (((w.drm.last_swap : Int) + w.drm.swap_interval - ((1 : Nat) : Int))
        % 4294967296).toNat
    · simp only [hlt, if_true]
      split_ifs <;> simp
    · simp only [hlt, if_false]
      simp
  · have hf : (if (0 : Int) ≠ 0 then 1 else 0 : Nat) = 0 := if_neg (by simp)
    unfold drm_kms_wait_for_post drm_kms_wait_for_post_wait
    simp only [hf, hquirk, hq, hfirst, hmod, vblank_query, vblank_secondary_flag,
      pacing_target, Bool.false_eq_true, if_false, or_true, true_and,
      ne_eq, not_true_eq_false, not_false_eq_true, if_true]
    by_cases hlt : (((w.drm.last_swap : Int) + w.drm.swap_interval - ((0 : Nat) : Int))
        % 4294967296).toNat < C
    · simp only [hlt, if_true, max_eq_right (le_of_lt hlt)]
      split_ifs <;> simp
    · simp only [hlt, if_false, max_eq_left (not_lt.1 hlt)]
      split_ifs <;> simp

theorem wait_for_post_targets_witness :
    (∀ flip : Int, flip ≠ 0 →
      (drm_kms_wait_for_post sample_driver (sample_world DRM_SWAP_FLIP false 1 0) flip).trace =
        (sample_world DRM_SWAP_FLIP false 1 0).trace ++
          [vblank_query (sample_world DRM_SWAP_FLIP false 1 0)] ++
          (if 1 < pacing_target (sample_world DRM_SWAP_FLIP false 1 0) 1 then
            [DrvCall.WaitVBlank
              (DRM_VBLANK_ABSOLUTE ||| vblank_secondary_flag (sample_world DRM_SWAP_FLIP false 1 0))
              (pacing_target (sample_world DRM_SWAP_FLIP false 1 0) 1)]
          else [])) ∧
    (drm_kms_wait_for_post sample_driver (sample_world DRM_SWAP_FLIP false 1 0) 0).trace =
      (sample_world DRM_SWAP_FLIP false 1 0).trace ++
        [vblank_query (sample_world DRM_SWAP_FLIP false 1 0),
        DrvCall.WaitVBlank
          (DRM_VBLANK_ABSOLUTE ||| vblank_secondary_flag (sample_world DRM_SWAP_FLIP false 1 0) |||
            DRM_VBLANK_NEXTONMISS)
          (max (pacing_target (sample_world DRM_SWAP_FLIP false 1 0) 0) 1)] :=
  wait_for_post_targets sample_driver (sample_world DRM_SWAP_FLIP false 1 0) 1
    (by decide) (by decide) (by decide) (by decide)

/-! ## Page flips -/

theorem page_flip_loop_frame (drv : Driver) (w : World) :
    ∃ tr cf wf,
      drm_kms_page_flip_loop drv w =
        { w with trace := tr,
                 drm := { w.drm with waiting_flip := wf, current_front := cf, next_front := 0 } } ∧
      (w.drm.next_front = 0 → cf = w.drm.current_front ∧ tr = w.trace) ∧
      (w.drm.next_front ≠ 0 → tr = w.trace ++ [DrvCall.HandleEvent] ∧
        (drv.drmHandleEvent (w.trace ++ [DrvCall.HandleEvent]) ≤ 1 → cf = w.drm.next_front) ∧
        (¬ drv.drmHandleEvent (w.trace ++ [DrvCall.HandleEvent]) ≤ 1 → cf = 0)) := by
  rw [page_flip_loop_eq]
  by_cases h : w.drm.next_front = 0
  · refine ⟨w.trace, w.drm.current_front, w.drm.waiting_flip, ?_, fun _ => ⟨rfl, rfl⟩,
      fun h' => absurd h h'⟩
    simp only [h, ne_eq, not_true_eq_false, if_false]
    cases w with
    | mk drm heap s tr =>
      cases drm
      simp_all
  · refine ⟨w.trace ++ [DrvCall.HandleEvent],
      (if drv.drmHandleEvent (w.trace ++ [DrvCall.HandleEvent]) ≤ 1 then w.drm.next_front
        else 0), false, ?_, fun h' => absurd h' h, fun _ => ⟨rfl, ?_, ?_⟩⟩
    · rw [if_pos h, page_flip_body_eq drv w h]
    · intro hle; simp [hle]
    · intro hle; simp [hle]

theorem wait_for_post_wait_frame (drv : Driver) (w : World) (tr1 : List DrvCall)
    (flip current target : Nat) :
    (drm_kms_wait_for_post_wait drv w tr1 flip current target).heap = w.heap ∧
    (drm_kms_wait_for_post_wait drv w tr1 flip current target).drm_singleton = w.drm_singleton ∧
    { (drm_kms_wait_for_post_wait drv w tr1 flip current target).drm with
      last_swap := w.drm.last_swap } = w.drm := by
  unfold drm_kms_wait_for_post_wait
  simp only []
  split_ifs <;> exact ⟨rfl, rfl, rfl⟩

theorem wait_for_post_frame (drv : Driver) (w : World) (flip : Int) :
    (drm_kms_wait_for_post drv w flip).heap = w.heap ∧
    (drm_kms_wait_for_post drv w flip).drm_singleton = w.drm_singleton ∧
    { (drm_kms_wait_for_post drv w flip).drm with last_swap := w.drm.last_swap } = w.drm := by
  unfold drm_kms_wait_for_post
  simp only []
  split_ifs <;>
    first
    | exact ⟨rfl, rfl, rfl⟩
    | exact wait_for_post_wait_frame _ _ _ _ _ _

theorem page_flip_null (drv : Driver) (w : World) :
    drm_kms_page_flip drv w 0 = some (0, drm_kms_page_flip_loop drv w) := by
  unfold drm_kms_page_flip
  simp

theorem page_flip_bo (drv : Driver) (w : World) (bo : Nat) (b : gralloc_drm_bo_t)
    (hb : deref w.heap bo = some b) :
    ∃ w0 tr, w0 = drm_kms_page_flip_loop drv w ∧
      tr = w0.trace ++ [DrvCall.PageFlip w0.drm.crtc_id b.fb_id] ∧
      drm_kms_page_flip drv w bo =
        some (drv.drmModePageFlip tr,
          if drv.drmModePageFlip tr ≠ 0 then { w0 with trace := tr }
          else { w0 with trace := tr, drm := { w0.drm with next_front := bo } }) := by
  have hbo : bo ≠ 0 := by
    intro h; rw [h] at hb; simp [deref] at hb
  obtain ⟨tr0, cf, wf, hloop, -, -⟩ := page_flip_loop_frame drv w
  have hheap : (drm_kms_page_flip_loop drv w).heap = w.heap := by rw [hloop]
  refine ⟨_, _, rfl, rfl, ?_⟩
  unfold drm_kms_page_flip
  simp only [hbo, if_false, hheap, hb]
  split_ifs <;> rfl

theorem wait_for_post_fronts (drv : Driver) (w : World) (flip : Int) :
    (drm_kms_wait_for_post drv w flip).heap = w.heap ∧
    same_config (drm_kms_wait_for_post drv w flip).drm w.drm ∧
    (drm_kms_wait_for_post drv w flip).drm.current_front = w.drm.current_front ∧
    (drm_kms_wait_for_post drv w flip).drm.next_front = w.drm.next_front := by
  obtain ⟨h1, -, h3⟩ := wait_for_post_frame drv w flip
  refine ⟨h1, ⟨?_, ?_, ?_, ?_, ?_⟩, ?_, ?_⟩
  · simpa using congrArg gralloc_drm_t.swap_mode h3
  · simpa using congrArg gralloc_drm_t.first_post h3
  · simpa using congrArg gralloc_drm_t.mode_sync_flip h3
  · simpa using congrArg gralloc_drm_t.mode_quirk_vmwgfx h3
  · simpa using congrArg gralloc_drm_t.swap_interval h3
  · simpa using congrArg gralloc_drm_t.current_front h3
  · simpa using congrArg gralloc_drm_t.next_front h3

theorem page_flip_loop_fronts (drv : Driver) (w : World) :
    (drm_kms_page_flip_loop drv w).heap = w.heap ∧
    same_config (drm_kms_page_flip_loop drv w).drm w.drm ∧
    (drm_kms_page_flip_loop drv w).drm.next_front = 0 ∧
    ((∀ tr, drv.drmHandleEvent tr ≤ 1) →
      (drm_kms_page_flip_loop drv w).drm.current_front = front_after_drain w) := by
  obtain ⟨tr, cf, wf, hloop, h0, h1⟩ := page_flip_loop_frame drv w
  rw [hloop]
  refine ⟨rfl, ⟨rfl, rfl, rfl, rfl, rfl⟩, rfl, ?_⟩
  intro hev
  show cf = front_after_drain w
  unfold front_after_drain
  by_cases h : w.drm.next_front = 0
  · simp only [h, ne_eq, not_true_eq_false, if_false]
    exact (h0 h).1
  · simp only [h, ne_eq, not_false_eq_true, if_true]
    exact (h1 h).2.1 (hev _)

theorem page_flip_fronts (drv : Driver) (w : World) (bo : Nat) (ret : Int) (w1 : World)
    (h : drm_kms_page_flip drv w bo = some (ret, w1)) :
    w1.heap = w.heap ∧ same_config w1.drm w.drm ∧
    w1.drm.next_front = (if ret = 0 then bo else 0) ∧
    ((∀ tr, drv.drmHandleEvent tr ≤ 1) → w1.drm.current_front = front_after_drain w) := by
  obtain ⟨hheap, hcfg, hnext, hcur⟩ := page_flip_loop_fronts drv w
  unfold drm_kms_page_flip at h
  simp only [] at h
  by_cases hbo : bo = 0
  · simp only [hbo, if_true, Option.some.injEq, Prod.mk.injEq] at h
    obtain ⟨h1, h2⟩ := h
    subst h1 h2
    simp only [if_true, hbo]
    exact ⟨hheap, hcfg, hnext, hcur⟩
  · simp only [hbo, if_false] at h
    cases hd : deref (drm_kms_page_flip_loop drv w).heap bo with
    | none => rw [hd] at h; exact absurd h (by simp)
    | some b =>
      rw [hd] at h
      simp only [] at h
      split at h
      · rename_i hne
        simp only [Option.some.injEq, Prod.mk.injEq] at h
        obtain ⟨h1, h2⟩ := h
        subst h2
        rw [← h1, if_neg hne]
        exact ⟨hheap, hcfg, hnext, hcur⟩
      · rename_i hz
        simp only [ne_eq, not_not] at hz
        simp only [Option.some.injEq, Prod.mk.injEq] at h
        obtain ⟨h1, h2⟩ := h
        subst h2
        rw [← h1, if_pos hz]
        exact ⟨hheap, hcfg, rfl, hcur⟩

theorem pacing_before_flip (drv : Driver) (w : World) :
    ∃ w0, w0 = (if w.drm.swap_interval > 1 then drm_kms_wait_for_post drv w 1 else w) ∧
      w0.heap = w.heap ∧ same_config w0.drm w.drm ∧
      w0.drm.current_front = w.drm.current_front ∧ w0.drm.next_front = w.drm.next_front ∧
      front_after_drain w0 = front_after_drain w := by
  refine ⟨_, rfl, ?_⟩
  split
  · obtain ⟨h1, h2, h3, h4⟩ := wait_for_post_fronts drv w 1
    exact ⟨h1, h2, h3, h4, by unfold front_after_drain; rw [h3, h4]⟩
  · exact ⟨rfl, ⟨rfl, rfl, rfl, rfl, rfl⟩, rfl, rfl, rfl⟩

theorem same_config_trans {d1 d2 d3 : gralloc_drm_t} (h12 : same_config d1 d2)
    (h23 : same_config d2 d3) : same_config d1 d3 := by
  obtain ⟨a1, a2, a3, a4, a5⟩ := h12
  obtain ⟨b1, b2, b3, b4, b5⟩ := h23
  exact ⟨a1.trans b1, a2.trans b2, a3.trans b3, a4.trans b4, a5.trans b5⟩

theorem post_flip_fronts (drv : Driver) (w : World) (bo : Nat) (ret : Int) (w1 : World)
    (hev : ∀ tr, drv.drmHandleEvent tr ≤ 1)
    (h : gralloc_drm_bo_post_flip drv w bo = some (ret, w1)) :
    w1.heap = w.heap ∧ same_config w1.drm w.drm ∧
    (ret ≠ 0 → w1.drm.next_front = 0 ∧ w1.drm.current_front = front_after_drain w) ∧
    (ret = 0 →
      (w1.drm.next_front = bo ∧ w1.drm.current_front = front_after_drain w) ∨
      (bo ≠ 0 ∧ w1.drm.next_front = 0 ∧ w1.drm.current_front = bo)) := by
  obtain ⟨w0, hw0, h0heap, h0cfg, -, -, h0front⟩ := pacing_before_flip drv w
  unfold gralloc_drm_bo_post_flip at h
  simp only [← hw0] at h
  cases hp : drm_kms_page_flip drv w0 bo with
  | none => rw [hp] at h; exact absurd h (by simp)
  | some p =>
    obtain ⟨r, w2⟩ := p
    rw [hp] at h
    simp only [] at h
    obtain ⟨h2heap, h2cfg, h2next, h2cur⟩ := page_flip_fronts drv w0 bo r w2 hp
    have h2cur := h2cur hev
    rw [h0front] at h2cur
    rw [h0heap] at h2heap
    have h2cfg := same_config_trans h2cfg h0cfg
    -- the state after the drain that follows the flip
    have hdrain : ∀ p3, drm_kms_page_flip drv w2 0 = some p3 → w2.drm.next_front = bo →
        bo ≠ 0 → r = 0 → (p3.2.heap = w.heap ∧ same_config p3.2.drm w.drm ∧
          p3.2.drm.next_front = 0 ∧ p3.2.drm.current_front = bo) := by
      intro p3 hp3 hnext hbo hr
      obtain ⟨r3, w3⟩ := p3
      obtain ⟨h3heap, h3cfg, h3next, h3cur⟩ := page_flip_fronts drv w2 0 r3 w3 hp3
      have h3cur := h3cur hev
      refine ⟨h3heap.trans h2heap, same_config_trans h3cfg h2cfg, ?_, ?_⟩
      · simpa using h3next
      · rw [h3cur]; unfold front_after_drain; rw [hnext]; simp [hbo]
    by_cases hnext : w2.drm.next_front = 0
    · simp only [hnext, ne_eq, not_true_eq_false, if_false, Option.some.injEq,
        Prod.mk.injEq] at h
      obtain ⟨hr, hw⟩ := h
      subst hr hw
      refine ⟨h2heap, h2cfg, fun _ => ⟨hnext, h2cur⟩, fun hz => Or.inl ⟨?_, h2cur⟩⟩
      rw [hnext] at h2next
      rw [if_pos hz] at h2next
      exact h2next.symm ▸ hnext
    · have hr : r = 0 := by
        by_contra hne
        rw [if_neg hne] at h2next
        exact hnext h2next
      rw [if_pos hr] at h2next
      have hbo : bo ≠ 0 := fun hb => hnext (h2next.trans hb)
      simp only [hnext, ne_eq, not_false_eq_true, if_true] at h
      have hfin : ∀ p3, drm_kms_page_flip drv w2 0 = some p3 → (r, p3.2) = (ret, w1) →
          w1.heap = w.heap ∧ same_config w1.drm w.drm ∧
          (ret ≠ 0 → w1.drm.next_front = 0 ∧ w1.drm.current_front = front_after_drain w) ∧
          (ret = 0 →
            (w1.drm.next_front = bo ∧ w1.drm.current_front = front_after_drain w) ∨
            (bo ≠ 0 ∧ w1.drm.next_front = 0 ∧ w1.drm.current_front = bo)) := by
        intro p3 hp3 heq
        obtain ⟨e1, e2, e3, e4⟩ := hdrain p3 hp3 h2next hbo hr
        simp only [Prod.mk.injEq] at heq
        obtain ⟨hr', hw'⟩ := heq
        subst hw'
        exact ⟨e1, e2, fun hne => absurd (hr'.symm.trans hr) hne,
          fun _ => Or.inr ⟨hbo, e3, e4⟩⟩
      have hkeep : (r, w2) = (ret, w1) →
          w1.heap = w.heap ∧ same_config w1.drm w.drm ∧
          (ret ≠ 0 → w1.drm.next_front = 0 ∧ w1.drm.current_front = front_after_drain w) ∧
          (ret = 0 →
            (w1.drm.next_front = bo ∧ w1.drm.current_front = front_after_drain w) ∨
            (bo ≠ 0 ∧ w1.drm.next_front = 0 ∧ w1.drm.current_front = bo)) := by
        intro heq
        simp only [Prod.mk.injEq] at heq
        obtain ⟨hr', hw'⟩ := heq
        subst hw'
        exact ⟨h2heap, h2cfg, fun hne => absurd (hr'.symm.trans hr) hne,
          fun _ => Or.inl ⟨h2next, h2cur⟩⟩
      by_cases hsync : w2.drm.mode_sync_flip = true
      · rw [if_pos hsync] at h
        cases hp3 : drm_kms_page_flip drv w2 0 with
        | none => rw [hp3] at h; exact absurd h (by simp)
        | some p3 =>
          rw [hp3] at h
          simp only [Option.map_some', Option.some.injEq] at h
          exact hfin p3 hp3 h
      · rw [if_neg hsync] at h
        cases hd : deref w2.heap w2.drm.current_front with
        | none => rw [hd] at h; exact absurd h (by simp)
        | some cf =>
          rw [hd] at h
          simp only [] at h
          by_cases hus : cf.handle.usage &&& GRALLOC_USAGE_SW_WRITE_MASK ≠ 0
          · rw [if_pos hus] at h
            cases hp3 : drm_kms_page_flip drv w2 0 with
            | none => rw [hp3] at h; exact absurd h (by simp)
            | some p3 =>
              rw [hp3] at h
              simp only [Option.map_some', Option.some.injEq] at h
              exact hfin p3 hp3 h
          · rw [if_neg hus] at h
            simp only [Option.some.injEq] at h
            exact hkeep h

theorem deref_ne_zero {heap : Heap} {p : Nat} {b : gralloc_drm_bo_t}
    (h : deref heap p = some b) : p ≠ 0 := by
  intro hp
  rw [hp] at h
  simp [deref] at h

theorem post_flip_total (drv : Driver) (w : World) (bo : Nat) (b a : gralloc_drm_bo_t)
    (hev : ∀ tr, drv.drmHandleEvent tr ≤ 1)
    (hb : deref w.heap bo = some b)
    (ha : deref w.heap (front_after_drain w) = some a) :
    ∃ ret w1, gralloc_drm_bo_post_flip drv w bo = some (ret, w1) := by
  obtain ⟨w0, hw0, h0heap, -, -, -, h0front⟩ := pacing_before_flip drv w
  unfold gralloc_drm_bo_post_flip
  simp only [← hw0]
  obtain ⟨wl, tr, -, -, hpf⟩ := page_flip_bo drv w0 bo b (by rw [h0heap]; exact hb)
  obtain ⟨h2heap, -, -, h2cur⟩ := page_flip_fronts drv w0 bo _ _ hpf
  rw [hpf]
  simp only []
  generalize (if drv.drmModePageFlip tr ≠ 0 then ({ wl with trace := tr } : World)
    else { wl with trace := tr, drm := { wl.drm with next_front := bo } }) = w2 at h2heap h2cur ⊢
  have hcur : deref w2.heap w2.drm.current_front = some a := by
    rw [h2heap, h0heap, h2cur hev, h0front]; exact ha
  split
  · split
    · rw [page_flip_null]; exact ⟨_, _, rfl⟩
    · rw [hcur]
      simp only []
      split
      · rw [page_flip_null]; exact ⟨_, _, rfl⟩
      · exact ⟨_, _, rfl⟩
  · exact ⟨_, _, rfl⟩

theorem post_flip_branch (drv : Driver) (w : World) (bo : Nat) (b : gralloc_drm_bo_t)
    (hmode : w.drm.swap_mode = DRM_SWAP_FLIP) (hfirst : w.drm.first_post = false)
    (hb : deref w.heap bo = some b) (hfb : b.fb_id ≠ 0) :
    gralloc_drm_bo_post drv w bo = gralloc_drm_bo_post_flip drv w bo := by
  unfold gralloc_drm_bo_post
  simp [hb, hfb, hfirst, hmode]

/-- C5, as amended. Under flip mode, with a flip outstanding for a live buffer,
a non-first post of a bound buffer `bo` returns; if the page flip is accepted
(result 0) then either `next_front` is `bo` and `current_front` is the buffer
whose flip was outstanding, or the synchronising drain has run and
`current_front` is `bo` with `next_front` null. Exactly one of the two holds
`bo` when `bo` is not the buffer whose flip was outstanding. Every event drain
is taken to dispatch at most one flip completion. -/
theorem flip_post_holds_latest (drv : Driver) (w : World) (bo : Nat)
    (b a : gralloc_drm_bo_t)
    (hev : ∀ tr, drv.drmHandleEvent tr ≤ 1)
    (hmode : w.drm.swap_mode = DRM_SWAP_FLIP) (hfirst : w.drm.first_post = false)
    (hnext : w.drm.next_front ≠ 0)
    (ha : deref w.heap w.drm.next_front = some a)
    (hb : deref w.heap bo = some b) (hfb : b.fb_id ≠ 0) :
    ∃ ret w1, gralloc_drm_bo_post drv w bo = some (ret, w1) ∧
      (ret = 0 →
        ((w1.drm.next_front = bo ∧ w1.drm.current_front = w.drm.next_front) ∨
          (w1.drm.next_front = 0 ∧ w1.drm.current_front = bo)) ∧
        (bo ≠ w.drm.next_front →
          Xor' (w1.drm.current_front = bo) (w1.drm.next_front = bo))) := by
  have hfront : front_after_drain w = w.drm.next_front := by
    unfold front_after_drain; simp [hnext]
  rw [post_flip_branch drv w bo b hmode hfirst hb hfb]
  obtain ⟨ret, w1, hpost⟩ := post_flip_total drv w bo b a hev hb (by rw [hfront]; exact ha)
  obtain ⟨-, -, -, hok⟩ := post_flip_fronts drv w bo ret w1 hev hpost
  rw [hfront] at hok
  refine ⟨ret, w1, hpost, fun hz => ?_⟩
  have hbo : bo ≠ 0 := deref_ne_zero hb
  rcases hok hz with ⟨h1, h2⟩ | ⟨-, h1, h2⟩
  · refine ⟨Or.inl ⟨h1, h2⟩, fun hne => Or.inr ⟨h1, ?_⟩⟩
    rw [h2]; exact fun h => hne h.symm
  · refine ⟨Or.inr ⟨h1, h2⟩, fun _ => Or.inl ⟨h2, ?_⟩⟩
    rw [h1]; exact fun h => hbo h.symm

/-- C5, counterexample. Posting again the buffer whose flip is outstanding
leaves it in both `current_front` and `next_front`; and when an event drain
dispatches two flip completions, neither holds the posted buffer. -/
theorem flip_post_not_exactly_one :
    (gralloc_drm_bo_post sample_driver (sample_world DRM_SWAP_FLIP false 1 2) 2).map
      (fun r => (r.1, r.2.drm.current_front, r.2.drm.next_front)) = some (0, 2, 2) ∧
    (gralloc_drm_bo_post double_event_driver (sync_world DRM_SWAP_FLIP false 1 2) 1).map
      (fun r => (r.1, r.2.drm.current_front, r.2.drm.next_front)) = some (0, 0, 0) := by
  constructor
  · simp [gralloc_drm_bo_post, gralloc_drm_bo_post_flip, drm_kms_page_flip, page_flip_loop_eq,
      drm_kms_page_flip_body, drmHandleEvent, page_flip_handler,
      sample_world, sample_drm, sample_driver, sample_bo, deref, List.lookup,
      GRALLOC_USAGE_SW_WRITE_MASK]
  · simp [gralloc_drm_bo_post, gralloc_drm_bo_post_flip, drm_kms_page_flip, page_flip_loop_eq,
      drm_kms_page_flip_body, drmHandleEvent, page_flip_handler, sync_world, double_event_driver,
      sample_world, sample_drm, sample_driver, sample_bo, deref, List.lookup,
      GRALLOC_USAGE_SW_WRITE_MASK]

theorem flip_post_holds_latest_witness :
    ∃ ret w1, gralloc_drm_bo_post sample_driver (sample_world DRM_SWAP_FLIP false 1 2) 1 =
        some (ret, w1) ∧
      (ret = 0 →
        ((w1.drm.next_front = 1 ∧
            w1.drm.current_front = (sample_world DRM_SWAP_FLIP false 1 2).drm.next_front) ∨
          (w1.drm.next_front = 0 ∧ w1.drm.current_front = 1)) ∧
        (1 ≠ (sample_world DRM_SWAP_FLIP false 1 2).drm.next_front →
          Xor' (w1.drm.current_front = 1) (w1.drm.next_front = 1))) :=
  flip_post_holds_latest sample_driver (sample_world DRM_SWAP_FLIP false 1 2) 1
    (sample_bo 11 0) (sample_bo 12 0) (fun _ => le_refl 1) (by decide) (by decide)
    (by decide) (by decide) (by decide) (by decide)

/-! ## The front buffers under flip mode -/

theorem post_keeps_flip_invariant (drv : Driver) (hev : ∀ tr, drv.drmHandleEvent tr ≤ 1)
    (w w1 : World) (bo : Nat) (ret : Int)
    (hmode : w.drm.swap_mode = DRM_SWAP_FLIP)
    (hpre : w.drm.first_post = true → w.drm.current_front = 0 ∧ w.drm.next_front = 0)
    (hcur : w.drm.first_post = false → w.drm.current_front ≠ 0)
    (hpost : gralloc_drm_bo_post drv w bo = some (ret, w1)) :
    w1.drm.swap_mode = DRM_SWAP_FLIP ∧
    (w1.drm.first_post = true → w1.drm.current_front = 0 ∧ w1.drm.next_front = 0) ∧
    (w1.drm.first_post = false → w1.drm.current_front ≠ 0) := by
  unfold gralloc_drm_bo_post at hpost
  cases hb : deref w.heap bo with
  | none => rw [hb] at hpost; exact absurd hpost (by simp)
  | some b =>
    rw [hb] at hpost
    simp only [] at hpost
    have hbo : bo ≠ 0 := deref_ne_zero hb
    by_cases hguard : b.fb_id = 0 ∧ w.drm.swap_mode ≠ DRM_SWAP_COPY
    · rw [if_pos hguard] at hpost
      simp only [Option.some.injEq, Prod.mk.injEq] at hpost
      obtain ⟨-, hw⟩ := hpost
      subst hw
      exact ⟨hmode, hpre, hcur⟩
    · rw [if_neg hguard] at hpost
      by_cases hfirst : w.drm.first_post = true
      · rw [if_pos hfirst, post_first_eq] at hpost
        have htgt : first_post_target w bo = bo := by
          unfold first_post_target; simp [hmode]
        rw [htgt, hb] at hpost
        simp only [hmode, reduceCtorEq, if_false, List.append_nil] at hpost
        obtain ⟨tail, hst, -, -⟩ := set_crtc_spec drv { w with trace := w.trace } b.fb_id
        split at hpost
        · simp only [Option.some.injEq, Prod.mk.injEq] at hpost
          obtain ⟨-, hw⟩ := hpost
          subst hw
          refine ⟨?_, ?_, ?_⟩
          · show (drm_kms_set_crtc drv _ b.fb_id).2.drm.swap_mode = DRM_SWAP_FLIP
            rw [hst]; exact hmode
          · intro h; exact absurd h (by simp)
          · intro _; exact hbo
        · simp only [Option.some.injEq] at hpost
          have hw : w1 = (drm_kms_set_crtc drv { w with trace := w.trace } b.fb_id).2 := by
            rw [hpost]
          rw [hw, hst]
          exact ⟨hmode, hpre, hcur⟩
      · have hfirst' : w.drm.first_post = false := by simpa using hfirst
        rw [if_neg hfirst] at hpost
        simp only [hmode] at hpost
        obtain ⟨-, ⟨hm, hf, -, -, -⟩, hfail, hok⟩ := post_flip_fronts drv w bo ret w1 hev hpost
        have hfront : front_after_drain w ≠ 0 := by
          unfold front_after_drain
          split
          · assumption
          · exact hcur hfirst'
        refine ⟨hm.trans hmode, fun h => ?_, fun _ => ?_⟩
        · rw [hf, hfirst'] at h; exact absurd h (by simp)
        · by_cases hz : ret = 0
          · rcases hok hz with ⟨-, h2⟩ | ⟨-, -, h2⟩
            · rw [h2]; exact hfront
            · rw [h2]; exact hbo
          · rw [(hfail hz).2]; exact hfront

/-- C6, as amended. In every state of a flip-mode handle reachable through
`gralloc_drm_bo_post`, each event drain dispatching at most one flip
completion: before the first successful post both front references are null;
afterwards `current_front` is non-null, so that while a flip is in flight
(`next_front` non-null) both are non-null, and otherwise exactly
`current_front` is. -/
theorem flip_reachable_fronts (drv : Driver) (hev : ∀ tr, drv.drmHandleEvent tr ≤ 1)
    (w : World) (hr : FlipReachable drv w) :
    w.drm.swap_mode = DRM_SWAP_FLIP ∧
    (w.drm.first_post = true → w.drm.current_front = 0 ∧ w.drm.next_front = 0) ∧
    (w.drm.first_post = false → w.drm.current_front ≠ 0) ∧
    (w.drm.next_front ≠ 0 → w.drm.first_post = false ∧ w.drm.current_front ≠ 0) := by
  have key : w.drm.swap_mode = DRM_SWAP_FLIP ∧
      (w.drm.first_post = true → w.drm.current_front = 0 ∧ w.drm.next_front = 0) ∧
      (w.drm.first_post = false → w.drm.current_front ≠ 0) := by
    induction hr with
    | init w hmode hfirst hcur hnext =>
      exact ⟨hmode, fun _ => ⟨hcur, hnext⟩, fun h => by rw [hfirst] at h; exact absurd h (by simp)⟩
    | post w w1 bo ret _ hpost ih =>
      exact post_keeps_flip_invariant drv hev w w1 bo ret ih.1 ih.2.1 ih.2.2 hpost
  obtain ⟨h1, h2, h3⟩ := key
  refine ⟨h1, h2, h3, fun hn => ?_⟩
  have hf : w.drm.first_post = false := by
    cases hfp : w.drm.first_post with
    | false => rfl
    | true => exact absurd (h2 hfp).2 hn
  exact ⟨hf, h3 hf⟩

theorem flip_reachable_fronts_witness :
    flip_pending_world.drm.swap_mode = DRM_SWAP_FLIP ∧
    (flip_pending_world.drm.first_post = true →
      flip_pending_world.drm.current_front = 0 ∧ flip_pending_world.drm.next_front = 0) ∧
    (flip_pending_world.drm.first_post = false → flip_pending_world.drm.current_front ≠ 0) ∧
    (flip_pending_world.drm.next_front ≠ 0 →
      flip_pending_world.drm.first_post = false ∧ flip_pending_world.drm.current_front ≠ 0) :=
  flip_reachable_fronts sample_driver (fun _ => le_refl 1) flip_pending_world
    (FlipReachable.post first_posted_world flip_pending_world 2 0
      (FlipReachable.post (sample_world DRM_SWAP_FLIP true 0 0) first_posted_world 1 0
        (FlipReachable.init _ rfl rfl rfl rfl)
        (by simp [gralloc_drm_bo_post, gralloc_drm_bo_post_first, drm_kms_set_crtc,
          first_posted_world, sample_world, sample_drm, sample_driver, sample_bo, deref,
          List.lookup]))
      (by simp [gralloc_drm_bo_post, gralloc_drm_bo_post_flip, drm_kms_page_flip,
        page_flip_loop_eq, drm_kms_page_flip_body, drmHandleEvent, page_flip_handler,
        first_posted_world, flip_pending_world, sample_world, sample_drm, sample_driver,
        sample_bo, deref, List.lookup, GRALLOC_USAGE_SW_WRITE_MASK]))

/-- C6, counterexample. After a first post of buffer 1 and a post of buffer 2
under flip mode a flip is in flight and both `current_front` and `next_front`
are non-null. -/
theorem flip_in_flight_both_fronts :
    FlipReachable sample_driver flip_pending_world ∧
    flip_pending_world.drm.next_front ≠ 0 ∧
    ¬ Xor' (flip_pending_world.drm.current_front ≠ 0)
      (flip_pending_world.drm.next_front ≠ 0) := by
  refine ⟨?_, by decide, by decide⟩
  refine FlipReachable.post first_posted_world flip_pending_world 2 0
    (FlipReachable.post (sample_world DRM_SWAP_FLIP true 0 0) first_posted_world 1 0
      (FlipReachable.init _ rfl rfl rfl rfl) ?_) ?_
  · simp [gralloc_drm_bo_post, gralloc_drm_bo_post_first, drm_kms_set_crtc,
      first_posted_world, sample_world, sample_drm, sample_driver, sample_bo, deref,
      List.lookup]
  · simp [gralloc_drm_bo_post, gralloc_drm_bo_post_flip, drm_kms_page_flip,
      page_flip_loop_eq, drm_kms_page_flip_body, drmHandleEvent, page_flip_handler,
      first_posted_world, flip_pending_world, sample_world, sample_drm, sample_driver,
      sample_bo, deref, List.lookup, GRALLOC_USAGE_SW_WRITE_MASK]

/-! ## Copy mode -/

theorem wait_for_post_wait_trace (drv : Driver) (w : World) (q : DrvCall)
    (hq : q.presented_fb = none) (flip current target : Nat) :
    ∃ new, (drm_kms_wait_for_post_wait drv w (w.trace ++ [q]) flip current target).trace =
        w.trace ++ new ∧ ∀ c ∈ new, c.presented_fb = none := by
  generalize hX : drm_kms_wait_for_post_wait drv w (w.trace ++ [q]) flip current target = X
  unfold drm_kms_wait_for_post_wait at hX
  simp only [] at hX
  have hmem : ∀ c' : DrvCall, c'.presented_fb = none →
      ∀ c ∈ [q, c'], c.presented_fb = none := by
    intro c' hc' c hc
    simp only [List.mem_cons, List.mem_singleton, List.not_mem_nil, or_false] at hc
    rcases hc with h | h <;> rw [h] <;> assumption
  split_ifs at hX <;> subst hX <;>
    exact ⟨[q, _], List.append_assoc _ _ _, hmem _ rfl⟩

theorem wait_for_post_trace (drv : Driver) (w : World) (flip : Int) :
    ∃ new, (drm_kms_wait_for_post drv w flip).trace = w.trace ++ new ∧
      ∀ c ∈ new, c.presented_fb = none := by
  generalize hX : drm_kms_wait_for_post drv w flip = X
  unfold drm_kms_wait_for_post at hX
  simp only [] at hX
  have hone : ∀ q : DrvCall, q.presented_fb = none → ∀ c ∈ [q], c.presented_fb = none := by
    intro q hq c hc
    rw [List.mem_singleton.1 hc]; exact hq
  split_ifs at hX <;> subst hX
  all_goals first
    | exact ⟨[], (List.append_nil _).symm, fun c hc => absurd hc (List.not_mem_nil c)⟩
    | exact ⟨[_], rfl, hone _ rfl⟩
    | exact wait_for_post_wait_trace drv w _ (by rfl) _ _ _

/-- C8. Under copy mode a post, first or later, whatever it returns, leaves
the buffers as they were, the posted buffer and its framebuffer id included;
every framebuffer id it hands to the display engine (set-crtc, dirty refresh,
page flip) is that of the internal front buffer. The post returns whenever
the internal front buffer is alive. -/
theorem copy_post_keeps_buffer (drv : Driver) (w : World) (bo : Nat) (b : gralloc_drm_bo_t)
    (hmode : w.drm.swap_mode = DRM_SWAP_COPY) (hb : deref w.heap bo = some b) :
    (∀ ret w1, gralloc_drm_bo_post drv w bo = some (ret, w1) →
      w1.heap = w.heap ∧ deref w1.heap bo = some b ∧
      ∃ new, w1.trace = w.trace ++ new ∧
        ∀ c ∈ new, ∀ id, c.presented_fb = some id →
          ∃ f, deref w.heap (copy_front w) = some f ∧ id = f.fb_id) ∧
    ((∃ f, deref w.heap (copy_front w) = some f) →
      ∃ ret w1, gralloc_drm_bo_post drv w bo = some (ret, w1)) := by
  have hguard : ¬ (b.fb_id = 0 ∧ w.drm.swap_mode ≠ DRM_SWAP_COPY) := fun h => h.2 hmode
  have hpost : gralloc_drm_bo_post drv w bo =
      if w.drm.first_post = true then gralloc_drm_bo_post_first drv w bo b
      else gralloc_drm_bo_post_copy drv w bo b := by
    unfold gralloc_drm_bo_post
    simp [hb, hmode]
  rw [hpost]
  by_cases hfirst : w.drm.first_post = true
  · simp only [hfirst, if_true]
    have htgt : first_post_target w bo = copy_front w := by
      unfold first_post_target copy_front; simp [hmode, hfirst]
    rw [post_first_eq, htgt]
    simp only [hmode, if_true]
    cases hf : deref w.heap (copy_front w) with
    | none => exact ⟨fun _ _ h => absurd h (by simp), fun ⟨f, h⟩ => absurd h (by simp)⟩
    | some f =>
      simp only []
      obtain ⟨tail, hst, htail, -⟩ := set_crtc_spec drv
        { w with trace := w.trace ++
          [DrvCall.Copy (copy_front w) bo 0 0 b.handle.width b.handle.height] } f.fb_id
      have hnew : ∀ c ∈ DrvCall.Copy (copy_front w) bo 0 0 b.handle.width b.handle.height ::
          DrvCall.SetCrtc w.drm.crtc_id f.fb_id w.drm.connector_id :: tail,
          ∀ id, c.presented_fb = some id → ∃ f', some f = some f' ∧ id = f'.fb_id := by
        intro c hc id hid
        refine ⟨f, rfl, ?_⟩
        rcases List.mem_cons.1 hc with h | h
        · rw [h] at hid; exact absurd hid (by simp [DrvCall.presented_fb])
        · rcases List.mem_cons.1 h with h | h
          · rw [h] at hid
            simpa [DrvCall.presented_fb] using hid.symm
          · rcases htail with ht | ⟨-, ht⟩
            · rw [ht] at h; exact absurd h (List.not_mem_nil c)
            · rw [ht] at h
              rw [List.mem_singleton.1 h] at hid
              simpa [DrvCall.presented_fb] using hid.symm
      have hw2 : ∀ w1 : World, w1 = (drm_kms_set_crtc drv
            { w with trace := w.trace ++
              [DrvCall.Copy (copy_front w) bo 0 0 b.handle.width b.handle.height] }
            f.fb_id).2 ∨
          (∃ d, w1 = { (drm_kms_set_crtc drv
            { w with trace := w.trace ++
              [DrvCall.Copy (copy_front w) bo 0 0 b.handle.width b.handle.height] }
            f.fb_id).2 with drm := d }) →
          w1.heap = w.heap ∧ deref w1.heap bo = some b ∧
          ∃ new, w1.trace = w.trace ++ new ∧
            ∀ c ∈ new, ∀ id, c.presented_fb = some id →
              ∃ f', some f = some f' ∧ id = f'.fb_id := by
        intro w1 hw1
        have hh : w1.heap = w.heap ∧ w1.trace = w.trace ++
            (DrvCall.Copy (copy_front w) bo 0 0 b.handle.width b.handle.height ::
              DrvCall.SetCrtc w.drm.crtc_id f.fb_id w.drm.connector_id :: tail) := by
          rcases hw1 with h | ⟨d, h⟩ <;> rw [h, hst] <;> simp
        exact ⟨hh.1, by rw [hh.1]; exact hb, _, hh.2, hnew⟩
      constructor
      · intro ret w1 h
        split at h
        · simp only [Option.some.injEq, Prod.mk.injEq] at h
          exact hw2 w1 (Or.inr ⟨_, h.2.symm⟩)
        · simp only [Option.some.injEq] at h
          exact hw2 w1 (Or.inl (by rw [h]))
      · intro _
        split
        · exact ⟨_, _, rfl⟩
        · exact ⟨_, _, rfl⟩
  · have hfirst' : w.drm.first_post = false := by simpa using hfirst
    simp only [hfirst, if_false]
    have hcf : copy_front w = w.drm.current_front := by
      unfold copy_front; simp [hfirst']
    rw [hcf]
    unfold gralloc_drm_bo_post_copy
    obtain ⟨hheap, ⟨-, -, -, hq, -⟩, hcur, -⟩ := wait_for_post_fronts drv w 0
    obtain ⟨new, htr, hnew⟩ := wait_for_post_trace drv w 0
    simp only [hheap, hcur, hq, htr]
    by_cases hquirk : w.drm.mode_quirk_vmwgfx = true
    · simp only [hquirk, if_true]
      cases hf : deref w.heap w.drm.current_front with
      | none => exact ⟨fun _ _ h => absurd h (by simp), fun ⟨f, h⟩ => absurd h (by simp)⟩
      | some f =>
        simp only []
        refine ⟨fun ret w1 h => ?_, fun _ => ⟨_, _, rfl⟩⟩
        simp only [Option.some.injEq, Prod.mk.injEq] at h
        obtain ⟨-, rfl⟩ := h
        refine ⟨rfl, hb,
          new ++ [DrvCall.Copy w.drm.current_front bo 0 0 b.handle.width b.handle.height,
            DrvCall.DirtyFB f.fb_id], by simp, ?_⟩
        intro c hc id hid
        refine ⟨f, rfl, ?_⟩
        rcases List.mem_append.1 hc with hc | hc
        · rw [hnew c hc] at hid; exact absurd hid (by simp)
        · simp only [List.mem_cons, List.mem_singleton, List.not_mem_nil, or_false] at hc
          rcases hc with hc | hc <;> subst hc <;> simp_all [DrvCall.presented_fb]
    · simp only [hquirk, if_false]
      refine ⟨fun ret w1 h => ?_, fun _ => ⟨_, _, rfl⟩⟩
      simp only [Option.some.injEq, Prod.mk.injEq] at h
      obtain ⟨-, rfl⟩ := h
      refine ⟨rfl, hb,
        new ++ [DrvCall.Copy w.drm.current_front bo 0 0 b.handle.width b.handle.height],
        by simp, ?_⟩
      intro c hc id hid
      rcases List.mem_append.1 hc with hc | hc
      · rw [hnew c hc] at hid; exact absurd hid (by simp)
      · simp only [List.mem_singleton] at hc
        subst hc
        simp [DrvCall.presented_fb] at hid

theorem copy_post_keeps_buffer_witness :
    (∀ ret w1, gralloc_drm_bo_post sample_driver (sample_world DRM_SWAP_COPY false 2 0) 1 =
        some (ret, w1) →
      w1.heap = (sample_world DRM_SWAP_COPY false 2 0).heap ∧
      deref w1.heap 1 = some (sample_bo 11 0) ∧
      ∃ new, w1.trace = (sample_world DRM_SWAP_COPY false 2 0).trace ++ new ∧
        ∀ c ∈ new, ∀ id, c.presented_fb = some id →
          ∃ f, deref (sample_world DRM_SWAP_COPY false 2 0).heap
              (copy_front (sample_world DRM_SWAP_COPY false 2 0)) = some f ∧ id = f.fb_id) ∧
    ((∃ f, deref (sample_world DRM_SWAP_COPY false 2 0).heap
        (copy_front (sample_world DRM_SWAP_COPY false 2 0)) = some f) →
      ∃ ret w1, gralloc_drm_bo_post sample_driver (sample_world DRM_SWAP_COPY false 2 0) 1 =
        some (ret, w1)) :=
  copy_post_keeps_buffer sample_driver (sample_world DRM_SWAP_COPY false 2 0) 1
    (sample_bo 11 0) (by decide) (by decide)

/-! ## Teardown -/

/-- C9. Teardown under copy mode returns and destroys one front buffer at
most: `current_front` when it is non-null, which is then cleared while
`next_front` is left as it was; otherwise `next_front` when that is non-null;
and nothing when both are null. The only other call is the release of the
resources, when they are held. -/
theorem fini_kms_copy_destroys_one (drv : Driver) (w : World)
    (hmode : w.drm.swap_mode = DRM_SWAP_COPY) :
    ∃ w1, gralloc_drm_fini_kms drv w = some w1 ∧
      (w.drm.current_front ≠ 0 →
        w1.trace = w.trace ++ [DrvCall.BoDestroy w.drm.current_front] ++ free_resources_calls w ∧
        w1.drm.current_front = 0 ∧ w1.drm.next_front = w.drm.next_front) ∧
      (w.drm.current_front = 0 → w.drm.next_front ≠ 0 →
        w1.trace = w.trace ++ [DrvCall.BoDestroy w.drm.next_front] ++ free_resources_calls w ∧
        w1.drm.current_front = 0 ∧ w1.drm.next_front = 0) ∧
      (w.drm.current_front = 0 → w.drm.next_front = 0 →
        w1.trace = w.trace ++ free_resources_calls w ∧
        w1.drm.current_front = 0 ∧ w1.drm.next_front = 0) := by
  unfold gralloc_drm_fini_kms free_resources_calls
  simp only [hmode]
  by_cases hc : w.drm.current_front = 0
  · by_cases hn : w.drm.next_front = 0
    · by_cases hres : w.drm.resources.isSome = true <;> simp [hc, hn, hres]
    · by_cases hres : w.drm.resources.isSome = true <;> simp [hc, hn, hres]
  · by_cases hres : w.drm.resources.isSome = true <;> simp [hc, hres]

theorem fini_kms_copy_destroys_one_witness :
    ∃ w1, gralloc_drm_fini_kms sample_driver (sample_world DRM_SWAP_COPY false 1 2) = some w1 ∧
      ((sample_world DRM_SWAP_COPY false 1 2).drm.current_front ≠ 0 →
        w1.trace = (sample_world DRM_SWAP_COPY false 1 2).trace ++
          [DrvCall.BoDestroy (sample_world DRM_SWAP_COPY false 1 2).drm.current_front] ++
          free_resources_calls (sample_world DRM_SWAP_COPY false 1 2) ∧
        w1.drm.current_front = 0 ∧
        w1.drm.next_front = (sample_world DRM_SWAP_COPY false 1 2).drm.next_front) ∧
      ((sample_world DRM_SWAP_COPY false 1 2).drm.current_front = 0 →
        (sample_world DRM_SWAP_COPY false 1 2).drm.next_front ≠ 0 →
        w1.trace = (sample_world DRM_SWAP_COPY false 1 2).trace ++
          [DrvCall.BoDestroy (sample_world DRM_SWAP_COPY false 1 2).drm.next_front] ++
          free_resources_calls (sample_world DRM_SWAP_COPY false 1 2) ∧
        w1.drm.current_front = 0 ∧ w1.drm.next_front = 0) ∧
      ((sample_world DRM_SWAP_COPY false 1 2).drm.current_front = 0 →
        (sample_world DRM_SWAP_COPY false 1 2).drm.next_front = 0 →
        w1.trace = (sample_world DRM_SWAP_COPY false 1 2).trace ++
          free_resources_calls (sample_world DRM_SWAP_COPY false 1 2) ∧
        w1.drm.current_front = 0 ∧ w1.drm.next_front = 0) :=
  fini_kms_copy_destroys_one sample_driver (sample_world DRM_SWAP_COPY false 1 2) (by decide)

/-! ## Framebuffer binding -/

theorem add_fb_fields (drv : Driver) (b : gralloc_drm_bo_t) (tr : List DrvCall) :
    (gralloc_drm_bo_add_fb drv b tr).2.1.handle = b.handle ∧
    (gralloc_drm_bo_add_fb drv b tr).2.1.fb_handle = b.fb_handle := by
  unfold gralloc_drm_bo_add_fb
  simp only []
  split_ifs <;> exact ⟨rfl, rfl⟩

theorem add_fb_accepted (drv : Driver)
    (haccept : ∀ tr, (drv.drmModeAddFB tr).1 = 0 ∧ (drv.drmModeAddFB tr).2 ≠ 0)
    (b : gralloc_drm_bo_t) (tr : List DrvCall) :
    (gralloc_drm_bo_add_fb drv b tr).1 = 0 ∧ (gralloc_drm_bo_add_fb drv b tr).2.1.fb_id ≠ 0 := by
  unfold gralloc_drm_bo_add_fb
  simp only []
  split_ifs with h1 h2
  · exact ⟨rfl, h1⟩
  · exact absurd (haccept _).1 h2
  · exact ⟨rfl, (haccept _).2⟩

theorem rm_fb_fields (b : gralloc_drm_bo_t) (tr : List DrvCall) :
    (gralloc_drm_bo_rm_fb b tr).1.handle = b.handle ∧
    (gralloc_drm_bo_rm_fb b tr).1.fb_handle = b.fb_handle ∧
    (gralloc_drm_bo_rm_fb b tr).1.fb_id = 0 := by
  unfold gralloc_drm_bo_rm_fb
  split_ifs with h
  · exact ⟨rfl, rfl, rfl⟩
  · exact ⟨rfl, rfl, by simpa using h⟩

/-- C10. When the display engine accepts every registration with a non-zero
id, binding, unbinding and binding again ends, like a single binding, with
success and a non-zero framebuffer id, every other field of the buffer being
the same in both. Binding a bound buffer returns 0 with the buffer and the
trace as they were; unbinding leaves the id 0, and changes nothing, trace
included, when the id was 0. -/
theorem add_rm_add_fb (drv : Driver)
    (haccept : ∀ tr, (drv.drmModeAddFB tr).1 = 0 ∧ (drv.drmModeAddFB tr).2 ≠ 0)
    (bo : gralloc_drm_bo_t) (trace : List DrvCall) :
    (let once := gralloc_drm_bo_add_fb drv bo trace
     let off := gralloc_drm_bo_rm_fb once.2.1 once.2.2
     let again := gralloc_drm_bo_add_fb drv off.1 off.2
     once.1 = 0 ∧ again.1 = 0 ∧ once.2.1.fb_id ≠ 0 ∧ again.2.1.fb_id ≠ 0 ∧
     { again.2.1 with fb_id := once.2.1.fb_id } = once.2.1) ∧
    (∀ (b : gralloc_drm_bo_t) (tr : List DrvCall), b.fb_id ≠ 0 →
      gralloc_drm_bo_add_fb drv b tr = (0, b, tr)) ∧
    (∀ (b : gralloc_drm_bo_t) (tr : List DrvCall),
      (gralloc_drm_bo_rm_fb b tr).1.fb_id = 0 ∧
      (b.fb_id = 0 → gralloc_drm_bo_rm_fb b tr = (b, tr))) := by
  refine ⟨?_, ?_, ?_⟩
  · simp only []
    generalize hon : gralloc_drm_bo_add_fb drv bo trace = once
    generalize hof : gralloc_drm_bo_rm_fb once.2.1 once.2.2 = off
    generalize hag : gralloc_drm_bo_add_fb drv off.1 off.2 = again
    have h1 := add_fb_accepted drv haccept bo trace
    have h2 := rm_fb_fields once.2.1 once.2.2
    have h3 := add_fb_accepted drv haccept off.1 off.2
    have h4 := add_fb_fields drv off.1 off.2
    rw [hon] at h1
    rw [hof] at h2
    rw [hag] at h3 h4
    refine ⟨h1.1, h3.1, h1.2, h3.2, ?_⟩
    have e1 : again.2.1.handle = once.2.1.handle := h4.1.trans h2.1
    have e2 : again.2.1.fb_handle = once.2.1.fb_handle := h4.2.trans h2.2.1
    rw [e1, e2]
  · intro b tr hb
    unfold gralloc_drm_bo_add_fb
    simp [hb]
  · intro b tr
    unfold gralloc_drm_bo_rm_fb
    by_cases hb : b.fb_id = 0 <;> simp [hb]

theorem add_rm_add_fb_witness :
    (let once := gralloc_drm_bo_add_fb sample_driver (sample_bo 0 0) []
     let off := gralloc_drm_bo_rm_fb once.2.1 once.2.2
     let again := gralloc_drm_bo_add_fb sample_driver off.1 off.2
     once.1 = 0 ∧ again.1 = 0 ∧ once.2.1.fb_id ≠ 0 ∧ again.2.1.fb_id ≠ 0 ∧
     { again.2.1 with fb_id := once.2.1.fb_id } = once.2.1) ∧
    (∀ (b : gralloc_drm_bo_t) (tr : List DrvCall), b.fb_id ≠ 0 →
      gralloc_drm_bo_add_fb sample_driver b tr = (0, b, tr)) ∧
    (∀ (b : gralloc_drm_bo_t) (tr : List DrvCall),
      (gralloc_drm_bo_rm_fb b tr).1.fb_id = 0 ∧
      (b.fb_id = 0 → gralloc_drm_bo_rm_fb b tr = (b, tr))) :=
  add_rm_add_fb sample_driver (fun tr => ⟨rfl, Nat.succ_ne_zero tr.length⟩) (sample_bo 0 0) []

/-! ## Framebuffer format -/

theorem tdiv_eight_eq_two (b : Int) : Int.tdiv b 8 = 2 ↔ 16 ≤ b ∧ b ≤ 23 := by
  cases b with
  | ofNat n =>
    have h1 : Int.tdiv (Int.ofNat n) 8 = ((n / 8 : Nat) : Int) := rfl
    rw [h1, Int.ofNat_eq_coe]
    omega
  | negSucc n =>
    have h1 : Int.tdiv (Int.negSucc n) 8 = -(((n + 1) / 8 : Nat) : Int) := rfl
    have h2 := Int.negSucc_lt_zero n
    rw [h1]
    omega

theorem init_with_connector_fb_format (env : KmsEnv) (drm drm1 : gralloc_drm_t)
    (connector : drmModeConnector) (ret : Int)
    (h : drm_kms_init_with_connector env drm connector = some (ret, drm1)) :
    (ret = 0 → drm1.fb_format = fb_format_of_bpp (find_mode env.property connector.modes).2) ∧
    (ret ≠ 0 → drm1 = drm ∧ ret = -EINVAL) := by
  unfold drm_kms_init_with_connector at h
  split_ifs at h with h0
  · simp only [Option.some.injEq, Prod.mk.injEq] at h
    obtain ⟨rfl, rfl⟩ := h
    exact ⟨fun hz => absurd hz (by decide), fun _ => ⟨rfl, rfl⟩⟩
  · split at h
    · exact absurd h (by simp)
    · split at h
      · simp only [Option.some.injEq, Prod.mk.injEq] at h
        obtain ⟨rfl, rfl⟩ := h
        exact ⟨fun hz => absurd hz (by decide), fun _ => ⟨rfl, rfl⟩⟩
      · split at h
        · exact absurd h (by simp)
        · simp only [] at h
          split_ifs at h with h1
          · simp only [Option.some.injEq, Prod.mk.injEq] at h
            obtain ⟨rfl, rfl⟩ := h
            exact ⟨fun hz => absurd hz (by decide), fun _ => ⟨rfl, rfl⟩⟩
          · split at h
            · exact absurd h (by simp)
            · split at h
              · exact absurd h (by simp)
              · simp only [Option.some.injEq, Prod.mk.injEq] at h
                obtain ⟨rfl, rfl⟩ := h
                exact ⟨fun _ => rfl, fun hne => absurd rfl hne⟩

/-- C11, as amended. When mode selection accepts a connector, the framebuffer
format is the 16bpp RGB format exactly when a bit depth `b` with
`16 ≤ b ≤ 23` is supplied (the eighth of `b`, rounded towards zero, is 2), and
the 32-bit BGRA format for every other `b` and when no bit depth is supplied. -/
theorem init_with_connector_hinted_format (env : KmsEnv) (drm drm1 : gralloc_drm_t)
    (connector : drmModeConnector)
    (h : drm_kms_init_with_connector env drm connector = some (0, drm1)) :
    drm1.fb_format = hinted_fb_format env.property := by
  rw [(init_with_connector_fb_format env drm drm1 connector 0 h).1 rfl]
  unfold fb_format_of_bpp find_mode hinted_fb_format
  simp only []
  cases hp : env.property with
  | full x y b =>
    simp only [ModeProperty.bpp]
    by_cases hb : 16 ≤ b ∧ b ≤ 23
    · rw [if_pos ((tdiv_eight_eq_two b).2 hb), if_pos hb]
    · rw [if_neg (fun h2 => hb ((tdiv_eight_eq_two b).1 h2)), if_neg hb]
  | unset => simp [ModeProperty.bpp]
  | res x y => simp [ModeProperty.bpp]
  | malformed => simp [ModeProperty.bpp]

theorem init_with_connector_hinted_format_witness :
    ({ probing_drm with
        crtc_id := 22, connector_id := 31, mode := ⟨1024, 768, 0⟩,
        fb_format := HAL_PIXEL_FORMAT_RGB_565 } : gralloc_drm_t).fb_format =
      hinted_fb_format (sample_env (.full 1024 768 16)).property :=
  init_with_connector_hinted_format (sample_env (.full 1024 768 16)) probing_drm _
    ⟨31, DRM_MODE_CONNECTED, [⟨1920, 1080, 0⟩, ⟨1024, 768, 0⟩], [41]⟩ (by decide)

/-- C11, counterexample. With the hint `1024x768@17` mode selection succeeds
and selects the 16bpp RGB format, not the 32-bit BGRA format. -/
theorem bit_depth_17_selects_rgb565 :
    (drm_kms_init_with_connector (sample_env (.full 1024 768 17)) probing_drm
      sample_connector).map (fun r => (r.1, r.2.fb_format)) =
      some (0, HAL_PIXEL_FORMAT_RGB_565) ∧
    HAL_PIXEL_FORMAT_RGB_565 ≠ HAL_PIXEL_FORMAT_BGRA_8888 := by
  decide

/-! ## The composer shim -/

/-- C13, as amended. `hwc_prepare` returns 0 for every list; when the list is
non-null and carries `HWC_GEOMETRY_CHANGED`, every layer is `HWC_FRAMEBUFFER`
afterwards, the layers being otherwise the same and as many; when the flag is
not set the list is left as it was. -/
theorem hwc_prepare_marks_on_geometry_change (list : Option hwc_layer_list_t) :
    (hwc_prepare list).1 = 0 ∧
    (∀ l, list = some l → l.flags &&& HWC_GEOMETRY_CHANGED ≠ 0 →
      ∃ l1, (hwc_prepare list).2 = some l1 ∧ l1.flags = l.flags ∧
        l1.hwLayers.length = l.hwLayers.length ∧
        (∀ layer ∈ l1.hwLayers, layer.compositionType = HWC_FRAMEBUFFER) ∧
        l1.hwLayers.map (fun y => (y.flags, y.handle)) =
          l.hwLayers.map (fun y => (y.flags, y.handle))) ∧
    (∀ l, list = some l → l.flags &&& HWC_GEOMETRY_CHANGED = 0 →
      (hwc_prepare list).2 = some l) ∧
    (list = none → (hwc_prepare list).2 = none) := by
  refine ⟨?_, ?_, ?_, ?_⟩
  · unfold hwc_prepare
    cases list with
    | none => rfl
    | some l => simp only []; split <;> rfl
  · intro l hl hflag
    subst hl
    unfold hwc_prepare
    simp only [hflag, ne_eq, not_false_eq_true, if_true]
    refine ⟨_, rfl, rfl, by simp, ?_, ?_⟩
    · intro layer hmem
      simp only [List.mem_map] at hmem
      obtain ⟨y, -, rfl⟩ := hmem
      rfl
    · simp [List.map_map, Function.comp_def]
  · intro l hl hflag
    subst hl
    unfold hwc_prepare
    simp [hflag]
  · intro hl
    subst hl
    rfl

/-- C13, counterexample. A list without `HWC_GEOMETRY_CHANGED` whose layer is
marked `HWC_OVERLAY` comes back with the layer still marked `HWC_OVERLAY`. -/
theorem hwc_prepare_leaves_overlay :
    hwc_prepare (some ⟨0, [⟨HWC_OVERLAY, 0, 0⟩]⟩) = (0, some ⟨0, [⟨HWC_OVERLAY, 0, 0⟩]⟩) ∧
    HWC_OVERLAY ≠ HWC_FRAMEBUFFER := by
  decide

/-! ## Plane inventory -/

theorem crtc_bit_and (pc k : Nat) (hpc : pc < 4294967296) :
    pc &&& crtc_bit k ≠ 0 ↔ pc.testBit k = true := by
  unfold crtc_bit
  rw [Nat.one_shiftLeft]
  by_cases hk : k < 32
  · have h32 : 2 ^ k < 4294967296 :=
      calc 2 ^ k < 2 ^ 32 := Nat.pow_lt_pow_right (by norm_num) hk
        _ = 4294967296 := by norm_num
    rw [Nat.mod_eq_of_lt h32, Nat.and_two_pow]
    cases pc.testBit k <;> simp
  · have hdvd : 4294967296 ∣ 2 ^ k := by
      have : (2 : Nat) ^ 32 ∣ 2 ^ k := Nat.pow_dvd_pow 2 (by omega)
      simpa using this
    have hlt : pc < 2 ^ k :=
      calc pc < 2 ^ 32 := by simpa using hpc
        _ ≤ 2 ^ k := Nat.pow_le_pow_right (by norm_num) (by omega)
    rw [Nat.mod_eq_zero_of_dvd hdvd, Nat.testBit_lt_two_pow hlt]
    simp

theorem crtc_order_spec (crtc_id : Nat) (crtcs : List Nat) :
    crtc_order crtc_id crtcs ≤ crtcs.length ∧
    (crtc_order crtc_id crtcs = crtcs.length ↔ crtc_id ∉ crtcs) ∧
    (crtc_order crtc_id crtcs < crtcs.length →
      crtcs[crtc_order crtc_id crtcs]? = some crtc_id) ∧
    (∀ j c, j < crtc_order crtc_id crtcs → crtcs[j]? = some c → c ≠ crtc_id) := by
  induction crtcs with
  | nil => simp [crtc_order]
  | cons c cs ih =>
    obtain ⟨h1, h2, h3, h4⟩ := ih
    by_cases hc : c = crtc_id
    · simp [crtc_order, hc]
    · have hc' : ¬ crtc_id = c := fun h => hc h.symm
      simp only [crtc_order, hc, if_false, List.length_cons, List.mem_cons, hc', false_or]
      refine ⟨by omega, ?_, ?_, ?_⟩
      · rw [← h2]; omega
      · intro hlt
        rw [List.getElem?_cons_succ]
        exact h3 (by omega)
      · intro j d hj hd
        cases j with
        | zero => simp at hd; rw [← hd]; exact hc
        | succ j =>
          rw [List.getElem?_cons_succ] at hd
          exact h4 j d (by omega) hd

theorem plane_add_ok (env : KmsEnv) (herrno : ∀ i, env.errno i ≠ 0) (i : Nat)
    (drm : gralloc_drm_t) (plane : drmModePlane)
    (h : (gralloc_kms_plane_add env i drm plane).1 = 0) :
    (gralloc_kms_plane_add env i drm plane).2 =
      { drm with planes := drm.planes ++ [plane_descriptor plane] } := by
  unfold gralloc_kms_plane_add at h ⊢
  simp only [] at h ⊢
  split_ifs at h ⊢ with h1 h2
  · exact absurd h (herrno i)
  · exact absurd h (herrno i)
  · rfl

theorem planes_init_loop_spec (env : KmsEnv) (herrno : ∀ i, env.errno i ≠ 0) (order : Nat) :
    ∀ (ids : List Nat) (i : Nat) (drm : gralloc_drm_t),
      (gralloc_kms_planes_init_loop env order ids i drm).1 = 0 →
      ∃ planes, ids.map env.drmModeGetPlane = planes.map some ∧
        (gralloc_kms_planes_init_loop env order ids i drm).2 =
          { drm with planes := (drm.planes ++
            List.map plane_descriptor
              (List.filter (fun p => decide (p.possible_crtcs &&& crtc_bit order ≠ 0)) planes)) } := by
  intro ids
  induction ids with
  | nil =>
    intro i drm _
    exact ⟨[], rfl, by simp [gralloc_kms_planes_init_loop]⟩
  | cons id ids ih =>
    intro i drm h
    unfold gralloc_kms_planes_init_loop at h ⊢
    cases hp : env.drmModeGetPlane id with
    | none =>
      rw [hp] at h
      exact absurd h (herrno i)
    | some plane =>
      rw [hp] at h
      simp only [] at h ⊢
      by_cases hm : plane.possible_crtcs &&& crtc_bit order ≠ 0
      · rw [if_pos hm] at h ⊢
        by_cases hadd : (gralloc_kms_plane_add env i drm plane).1 ≠ 0
        · rw [if_pos hadd] at h
          exact absurd h hadd
        · rw [if_neg hadd] at h ⊢
          have hadd0 : (gralloc_kms_plane_add env i drm plane).1 = 0 := by
            simpa using hadd
          have hst := plane_add_ok env herrno i drm plane hadd0
          rw [hst] at h ⊢
          obtain ⟨planes, hmap, hres⟩ := ih (i + 1) _ h
          refine ⟨plane :: planes, by simp [hp, hmap], ?_⟩
          rw [hres]
          simp [List.filter_cons, hm]
      · rw [if_neg hm] at h ⊢
        obtain ⟨planes, hmap, hres⟩ := ih (i + 1) _ h
        refine ⟨plane :: planes, by simp [hp, hmap], ?_⟩
        rw [hres]
        simp [List.filter_cons, hm]

/-- C12. When `gralloc_kms_planes_init` returns 0 on a handle with an empty
plane list, the engine reported its CRTCs and its planes, the chosen CRTC is
at index `k` of the CRTC list and at no smaller index, every plane id resolved
to a plane, and the plane list of the handle consists of the planes whose
`possible_crtcs` has bit `k` set, in the order reported, each with its plane id
and formats as reported; nothing else in the handle changes. When the chosen
CRTC is not in the CRTC list the call returns `-EINVAL` and the handle is what
it was. Failed calls are taken to leave `errno` non-zero, masks to fit 32 bits. -/
theorem planes_init_inventory (env : KmsEnv) (drm : gralloc_drm_t)
    (hempty : drm.planes = [])
    (herrno : ∀ i, env.errno i ≠ 0)
    (hmask : ∀ id p, env.drmModeGetPlane id = some p → p.possible_crtcs < 4294967296) :
    ((gralloc_kms_planes_init env drm).1 = 0 →
      ∃ res ids k planes,
        env.drmModeGetResources = some res ∧
        env.drmModeGetPlaneResources = some ids ∧
        res.crtcs[k]? = some drm.crtc_id ∧
        (∀ j c, j < k → res.crtcs[j]? = some c → c ≠ drm.crtc_id) ∧
        ids.map env.drmModeGetPlane = planes.map some ∧
        (gralloc_kms_planes_init env drm).2 =
          { drm with planes :=
            (List.map plane_descriptor
              (List.filter (fun p => p.possible_crtcs.testBit k) planes)) }) ∧
    (∀ res, env.drmModeGetResources = some res → drm.crtc_id ∉ res.crtcs →
      gralloc_kms_planes_init env drm = (-EINVAL, drm)) := by
  constructor
  · intro h
    unfold gralloc_kms_planes_init at h ⊢
    cases hres : env.drmModeGetResources with
    | none => rw [hres] at h; exact absurd h (by simp [EINVAL])
    | some res =>
      rw [hres] at h
      simp only [] at h ⊢
      obtain ⟨hle, hiff, hget, hfirst⟩ := crtc_order_spec drm.crtc_id res.crtcs
      by_cases hord : crtc_order drm.crtc_id res.crtcs = res.crtcs.length
      · rw [if_pos hord] at h; exact absurd h (by simp [EINVAL])
      · rw [if_neg hord] at h ⊢
        cases hpl : env.drmModeGetPlaneResources with
        | none => rw [hpl] at h; exact absurd h (by simp [EINVAL])
        | some ids =>
          rw [hpl] at h
          simp only [] at h ⊢
          obtain ⟨planes, hmap, hst⟩ := planes_init_loop_spec env herrno _ ids 0 drm h
          refine ⟨res, ids, crtc_order drm.crtc_id res.crtcs, planes, rfl, rfl,
            hget (by omega), hfirst, hmap, ?_⟩
          rw [hst, hempty, List.nil_append]
          have hfilter : (planes.filter fun p =>
                decide (p.possible_crtcs &&& crtc_bit (crtc_order drm.crtc_id res.crtcs) ≠ 0)) =
              planes.filter fun p => p.possible_crtcs.testBit
                (crtc_order drm.crtc_id res.crtcs) := by
            apply List.filter_congr
            intro p hp
            have hin : some p ∈ ids.map env.drmModeGetPlane := by
              rw [hmap]; exact List.mem_map_of_mem _ hp
            obtain ⟨id, -, hid⟩ := List.mem_map.1 hin
            have hlt := hmask id p hid
            have := crtc_bit_and p.possible_crtcs (crtc_order drm.crtc_id res.crtcs) hlt
            by_cases hb : p.possible_crtcs.testBit (crtc_order drm.crtc_id res.crtcs) = true
            · simp [hb, this.2 hb]
            · have hb' : ¬ (p.possible_crtcs &&&
                  crtc_bit (crtc_order drm.crtc_id res.crtcs) ≠ 0) := fun h => hb (this.1 h)
              simp only [hb', decide_False]
              simpa using hb
          rw [hfilter]
  · intro res hres hnot
    unfold gralloc_kms_planes_init
    rw [hres]
    simp only []
    rw [if_pos ((crtc_order_spec drm.crtc_id res.crtcs).2.1.2 hnot)]

theorem planes_init_inventory_witness :
    (((gralloc_kms_planes_init (sample_env .unset) chosen_drm).1 = 0 →
      ∃ res ids k planes,
        (sample_env .unset).drmModeGetResources = some res ∧
        (sample_env .unset).drmModeGetPlaneResources = some ids ∧
        res.crtcs[k]? = some chosen_drm.crtc_id ∧
        (∀ j c, j < k → res.crtcs[j]? = some c → c ≠ chosen_drm.crtc_id) ∧
        ids.map (sample_env .unset).drmModeGetPlane = planes.map some ∧
        (gralloc_kms_planes_init (sample_env .unset) chosen_drm).2 =
          { chosen_drm with planes :=
            (List.map plane_descriptor
              (List.filter (fun p => p.possible_crtcs.testBit k) planes)) }) ∧
    (∀ res, (sample_env .unset).drmModeGetResources = some res →
      chosen_drm.crtc_id ∉ res.crtcs →
      gralloc_kms_planes_init (sample_env .unset) chosen_drm = (-EINVAL, chosen_drm))) ∧
    gralloc_kms_planes_init (sample_env .unset) chosen_drm =
      (0, { chosen_drm with planes := [⟨52, [200, 201]⟩, ⟨53, [300]⟩] }) :=
  ⟨planes_init_inventory (sample_env .unset) chosen_drm rfl
    (fun _ => by show (12 : Int) ≠ 0; decide)
    (by
      intro id p h
      simp only [sample_env] at h
      split_ifs at h <;> simp only [Option.some.injEq] at h <;> subst h <;> decide),
    by decide⟩

/-! ## Initialisation -/

theorem first_possible_crtc_none (pc n : Nat) (h : ∀ i, i < n → pc &&& crtc_bit i = 0) :
    first_possible_crtc pc n = n := by
  unfold first_possible_crtc
  have : (List.range n).find? (fun i => decide (pc &&& crtc_bit i ≠ 0)) = none := by
    rw [List.find?_eq_none]
    intro i hi
    have := h i (List.mem_range.1 hi)
    simp [this]
  rw [this]
  rfl

theorem init_with_connector_dark (env : KmsEnv) (drm : gralloc_drm_t) (res : drmModeRes)
    (c : drmModeConnector) (hres : drm.resources = some res)
    (hdark : c.modes ≠ [] → c.encoders ≠ [] ∧
      ∀ eid ∈ c.encoders, ∀ e, env.drmModeGetEncoder eid = some e →
        ∀ i, i < res.crtcs.length → e.possible_crtcs &&& crtc_bit i = 0) :
    drm_kms_init_with_connector env drm c = some (-EINVAL, drm) := by
  unfold drm_kms_init_with_connector
  by_cases hm : c.modes.length = 0
  · rw [if_pos hm]
  · rw [if_neg hm]
    have hm' : c.modes ≠ [] := fun h => hm (by rw [h]; rfl)
    obtain ⟨henc, hbits⟩ := hdark hm'
    cases hl : c.encoders with
    | nil => exact absurd hl henc
    | cons eid rest =>
      simp only [List.head?_cons]
      cases he : env.drmModeGetEncoder eid with
      | none => rfl
      | some e =>
        simp only [hres]
        have hz := first_possible_crtc_none e.possible_crtcs res.crtcs.length
          (hbits eid (by rw [hl]; exact List.mem_cons_self _ _) e he)
        rw [if_pos hz]

theorem init_kms_loop_dark (env : KmsEnv) (res : drmModeRes) (drm : gralloc_drm_t)
    (hres : drm.resources = some res) :
    ∀ ids : List Nat,
      (∀ id ∈ ids, ∀ c, env.drmModeGetConnector id = some c →
        c.connection = DRM_MODE_CONNECTED → c.modes ≠ [] →
          c.encoders ≠ [] ∧
          ∀ eid ∈ c.encoders, ∀ e, env.drmModeGetEncoder eid = some e →
            ∀ i, i < res.crtcs.length → e.possible_crtcs &&& crtc_bit i = 0) →
      gralloc_drm_init_kms_loop env ids drm = some (false, drm) := by
  intro ids
  induction ids with
  | nil => intro _; rfl
  | cons id ids ih =>
    intro h
    have hrest := ih (fun id' hid' => h id' (List.mem_cons_of_mem _ hid'))
    unfold gralloc_drm_init_kms_loop
    cases hc : env.drmModeGetConnector id with
    | none => exact hrest
    | some c =>
      simp only []
      by_cases hconn : c.connection = DRM_MODE_CONNECTED
      · rw [if_pos hconn,
          init_with_connector_dark env drm res c hres (h id (List.mem_cons_self _ _) c hc hconn)]
        simp only []
        rw [if_neg (by decide)]
        exact hrest
      · rw [if_neg hconn]
        exact hrest

/-- What C14 describes, on an engine whose connected connectors with a mode
list at least one encoder. On a handle without resources, when the engine
offers no connected connector with a mode and an encoder that can drive one of
its CRTCs, `gralloc_drm_init_kms` returns `-EINVAL`; the handle is what it was,
its resources reference null, so `gralloc_drm_is_kms_initialized` is false and
the first-post flag untouched; the buffers are what they were and the only
call made is the release of the resources, so `init_kms_features` has not run.
On a handle that holds resources the call returns 0 and changes nothing. -/
theorem init_kms_no_valid_display (drv : Driver) (env : KmsEnv) (w : World)
    (hnone : w.drm.resources = none)
    (hdark : ∀ res, env.drmModeGetResources = some res → no_valid_display env res) :
    (∃ w1, gralloc_drm_init_kms drv env w = some (-EINVAL, w1) ∧
      w1.drm = w.drm ∧ w1.drm.resources = none ∧
      gralloc_drm_is_kms_initialized w1.drm = false ∧
      w1.heap = w.heap ∧
      (w1.trace = w.trace ∨ w1.trace = w.trace ++ [DrvCall.FreeResources])) ∧
    (∀ w2 : World, w2.drm.resources.isSome = true →
      gralloc_drm_init_kms drv env w2 = some (0, w2)) := by
  constructor
  · unfold gralloc_drm_init_kms
    have hn : w.drm.resources.isSome = false := by rw [hnone]; rfl
    simp only [hn, Bool.false_eq_true, if_false]
    cases hres : env.drmModeGetResources with
    | none =>
      refine ⟨w, rfl, rfl, hnone, ?_, rfl, Or.inl rfl⟩
      unfold gralloc_drm_is_kms_initialized
      exact hn
    | some res =>
      simp only []
      rw [init_kms_loop_dark env res { w.drm with resources := some res } rfl res.connectors
        (hdark res hres)]
      simp only []
      have hdrm : ({ ({ w.drm with resources := some res } : gralloc_drm_t) with
          resources := none } : gralloc_drm_t) = w.drm := by
        cases hd : w.drm
        rw [hd] at hnone
        simp only [] at hnone
        simp [hnone]
      refine ⟨_, rfl, hdrm, ?_, ?_, rfl, Or.inr rfl⟩
      · rfl
      · rfl
  · intro w2 h2
    unfold gralloc_drm_init_kms
    rw [if_pos h2]

theorem init_kms_no_valid_display_witness :
    (∃ w1, gralloc_drm_init_kms sample_driver dark_env (sample_world DRM_SWAP_NOOP false 0 0) =
        some (-EINVAL, w1) ∧
      w1.drm = (sample_world DRM_SWAP_NOOP false 0 0).drm ∧ w1.drm.resources = none ∧
      gralloc_drm_is_kms_initialized w1.drm = false ∧
      w1.heap = (sample_world DRM_SWAP_NOOP false 0 0).heap ∧
      (w1.trace = (sample_world DRM_SWAP_NOOP false 0 0).trace ∨
        w1.trace = (sample_world DRM_SWAP_NOOP false 0 0).trace ++ [DrvCall.FreeResources])) ∧
    (∀ w2 : World, w2.drm.resources.isSome = true →
      gralloc_drm_init_kms sample_driver dark_env w2 = some (0, w2)) :=
  init_kms_no_valid_display sample_driver dark_env (sample_world DRM_SWAP_NOOP false 0 0) rfl
    (by
      intro res hres id hid c hc hconn hmodes
      simp only [dark_env, sample_env, Option.some.injEq] at hres hc
      subst hres
      split_ifs at hc
      simp only [Option.some.injEq] at hc
      subst hc
      refine ⟨by decide, ?_⟩
      intro eid heid e he i _
      simp only [dark_env] at he
      split_ifs at he
      simp only [Option.some.injEq] at he
      subst he
      exact Nat.zero_and _)

/-- The hypothesis `no_valid_display` is the antecedent of C14 together with
the presence of an encoder on every connected connector that has a mode. -/
theorem no_valid_display_iff (env : KmsEnv) (res : drmModeRes) :
    no_valid_display env res ↔
      no_display_combination env res ∧
      ∀ id ∈ res.connectors, ∀ c, env.drmModeGetConnector id = some c →
        c.connection = DRM_MODE_CONNECTED → c.modes ≠ [] → c.encoders ≠ [] := by
  unfold no_valid_display no_display_combination
  constructor
  · intro h
    exact ⟨fun id hid c hc hconn hm => (h id hid c hc hconn hm).2,
      fun id hid c hc hconn hm => (h id hid c hc hconn hm).1⟩
  · intro h id hid c hc hconn hm
    exact ⟨h.2 id hid c hc hconn hm, h.1 id hid c hc hconn hm⟩

/-- On the sample engine initialisation succeeds: the second CRTC, the
preferred mode and the 32-bit BGRA format are selected, the omap backend
chooses flip mode, and the first-post flag is set. -/
theorem init_kms_sample :
    gralloc_drm_init_kms sample_driver (sample_env .unset)
        (sample_world DRM_SWAP_NOOP false 0 0) =
      some (0, { sample_world DRM_SWAP_NOOP false 0 0 with
        trace := [DrvCall.InitKmsFeatures],
        drm_singleton := true,
        drm := { sample_drm DRM_SWAP_FLIP true 0 0 with
          resources := some ⟨[21, 22], [31]⟩, crtc_id := 22, connector_id := 31,
          mode := ⟨1280, 720, 8⟩, fb_format := HAL_PIXEL_FORMAT_BGRA_8888,
          mode_sync_flip := true, swap_interval := 0 } }) := by
  decide

/-- C14, at the failing input. The engine of `encoderless_env` has one
connector, connected, with two modes and no encoder, so no
connector/encoder/CRTC combination exists. On a handle without resources
`gralloc_drm_init_kms` does not return `-EINVAL`: `drm_kms_init_with_connector`
reads `encoders[0]` of the empty encoder array (the result `none`). The same
connector with an empty mode list is rejected with `-EINVAL` by the guard on
`count_modes`. -/
theorem init_kms_connector_without_encoder :
    encoderless_env.drmModeGetResources = some ⟨[21, 22], [31]⟩ ∧
    no_display_combination encoderless_env ⟨[21, 22], [31]⟩ ∧
    (sample_world DRM_SWAP_NOOP false 0 0).drm.resources = none ∧
    gralloc_drm_init_kms sample_driver encoderless_env
      (sample_world DRM_SWAP_NOOP false 0 0) = none ∧
    drm_kms_init_with_connector encoderless_env probing_drm
      ⟨31, DRM_MODE_CONNECTED, [⟨1920, 1080, 0⟩, ⟨1280, 720, 8⟩], []⟩ = none ∧
    drm_kms_init_with_connector encoderless_env probing_drm
      ⟨31, DRM_MODE_CONNECTED, [], []⟩ = some (-EINVAL, probing_drm) := by
  refine ⟨rfl, ?_, rfl, by decide, by decide, by decide⟩
  intro id _ c hc _ _ eid heid
  simp only [encoderless_env] at hc
  split_ifs at hc
  simp only [Option.some.injEq] at hc
  subst hc
  exact absurd heid (List.not_mem_nil eid)

/-! ## The drain that follows a flip -/

theorem pacing_before_flip_crtc (drv : Driver) (w : World) :
    (if w.drm.swap_interval > 1 then drm_kms_wait_for_post drv w 1 else w).drm.crtc_id =
      w.drm.crtc_id := by
  split
  · simpa using congrArg gralloc_drm_t.crtc_id (wait_for_post_frame drv w 1).2.2
  · rfl

theorem pacing_before_flip_trace (drv : Driver) (w : World) :
    ∃ new, (if w.drm.swap_interval > 1 then drm_kms_wait_for_post drv w 1 else w).trace =
        w.trace ++ new ∧ ∀ c ∈ new, c.presented_fb = none := by
  split
  · exact wait_for_post_trace drv w 1
  · exact ⟨[], (List.append_nil _).symm, fun c hc => absurd hc (List.not_mem_nil c)⟩

theorem post_flip_outcome (drv : Driver) (w : World) (bo : Nat) (b a : gralloc_drm_bo_t)
    (hev : ∀ tr, drv.drmHandleEvent tr ≤ 1)
    (hb : deref w.heap bo = some b)
    (ha : deref w.heap (front_after_drain w) = some a) :
    ∃ pre ret w1,
      (∃ new, pre = w.trace ++ new ∧ ∀ c ∈ new, c.presented_fb = none) ∧
      (∃ ev, pre = (if w.drm.swap_interval > 1 then drm_kms_wait_for_post drv w 1 else w).trace ++ ev ∧
        (ev = [] ∨ ev = [DrvCall.HandleEvent])) ∧
      ret = drv.drmModePageFlip (pre ++ [DrvCall.PageFlip w.drm.crtc_id b.fb_id]) ∧
      gralloc_drm_bo_post_flip drv w bo = some (ret, w1) ∧
      (ret ≠ 0 → w1.trace = pre ++ [DrvCall.PageFlip w.drm.crtc_id b.fb_id] ∧
        w1.drm.next_front = 0 ∧ w1.drm.current_front = front_after_drain w) ∧
      (ret = 0 →
        (w.drm.mode_sync_flip = true ∨ a.handle.usage &&& GRALLOC_USAGE_SW_WRITE_MASK ≠ 0 →
          w1.trace = pre ++ [DrvCall.PageFlip w.drm.crtc_id b.fb_id, DrvCall.HandleEvent] ∧
          w1.drm.next_front = 0 ∧ w1.drm.current_front = bo) ∧
        (¬ (w.drm.mode_sync_flip = true ∨
            a.handle.usage &&& GRALLOC_USAGE_SW_WRITE_MASK ≠ 0) →
          w1.trace = pre ++ [DrvCall.PageFlip w.drm.crtc_id b.fb_id] ∧
          w1.drm.next_front = bo ∧ w1.drm.current_front = front_after_drain w)) := by
  have hbo : bo ≠ 0 := deref_ne_zero hb
  obtain ⟨w0, hw0, h0heap, h0cfg, -, -, h0front⟩ := pacing_before_flip drv w
  have h0crtc : w0.drm.crtc_id = w.drm.crtc_id := by
    rw [hw0]; exact pacing_before_flip_crtc drv w
  obtain ⟨new0, h0tr, h0new⟩ := pacing_before_flip_trace drv w
  rw [← hw0] at h0tr
  -- the drain before the flip
  obtain ⟨trl, cf, wf, hloop, hl0, hl1⟩ := page_flip_loop_frame drv w0
  obtain ⟨-, -, -, hlcur⟩ := page_flip_loop_fronts drv w0
  have hcf : cf = front_after_drain w := by
    have := hlcur hev
    rw [hloop] at this
    rw [← h0front]; exact this
  have htrl : ∃ new, trl = w.trace ++ new ∧ ∀ c ∈ new, c.presented_fb = none := by
    by_cases hn : w0.drm.next_front = 0
    · exact ⟨new0, by rw [(hl0 hn).2, h0tr], h0new⟩
    · refine ⟨new0 ++ [DrvCall.HandleEvent], by rw [(hl1 hn).1, h0tr, List.append_assoc], ?_⟩
      intro c hc
      rcases List.mem_append.1 hc with h | h
      · exact h0new c h
      · rw [List.mem_singleton.1 h]; rfl
  have hevl : ∃ ev, trl = w0.trace ++ ev ∧ (ev = [] ∨ ev = [DrvCall.HandleEvent]) := by
    by_cases hn : w0.drm.next_front = 0
    · exact ⟨[], by rw [(hl0 hn).2, List.append_nil], Or.inl rfl⟩
    · exact ⟨[DrvCall.HandleEvent], (hl1 hn).1, Or.inr rfl⟩
  obtain ⟨wl, tr, hwl, htr, hpf⟩ := page_flip_bo drv w0 bo b (by rw [h0heap]; exact hb)
  rw [hloop] at hwl
  have htr' : tr = trl ++ [DrvCall.PageFlip w.drm.crtc_id b.fb_id] := by
    rw [htr, hwl]; simp only []; rw [h0crtc]
  clear htr
  subst htr'
  refine ⟨trl, drv.drmModePageFlip (trl ++ [DrvCall.PageFlip w.drm.crtc_id b.fb_id]), ?_⟩
  unfold gralloc_drm_bo_post_flip
  simp only [← hw0]
  by_cases hret : drv.drmModePageFlip (trl ++ [DrvCall.PageFlip w.drm.crtc_id b.fb_id]) = 0
  · -- the flip is accepted
    rw [if_neg (fun h => h hret)] at hpf
    obtain ⟨w2, hw2⟩ : ∃ w2 : World, w2 =
        { wl with
          trace := trl ++ [DrvCall.PageFlip w.drm.crtc_id b.fb_id],
          drm := { wl.drm with next_front := bo } } := ⟨_, rfl⟩
    rw [← hw2] at hpf
    rw [hpf]
    simp only []
    have hnext : w2.drm.next_front ≠ 0 := by rw [hw2]; exact hbo
    have hnextbo : w2.drm.next_front = bo := by rw [hw2]
    rw [if_pos hnext]
    have hsync : w2.drm.mode_sync_flip = w.drm.mode_sync_flip := by
      rw [hw2, hwl]; exact h0cfg.2.2.1
    have hcur2 : w2.drm.current_front = front_after_drain w := by
      rw [hw2, hwl]; exact hcf
    have hcur : deref w2.heap w2.drm.current_front = some a := by
      rw [hcur2, hw2, hwl]; simp only []; rw [h0heap]; exact ha
    have htr2 : w2.trace = trl ++ [DrvCall.PageFlip w.drm.crtc_id b.fb_id] := by rw [hw2]
    -- the state after the additional drain
    obtain ⟨tr3, cf3, wf3, hloop3, -, h31⟩ := page_flip_loop_frame drv w2
    have h3 := h31 hnext
    have hcf3 : cf3 = bo := (h3.2.1 (hev _)).trans hnextbo
    have hdrained : ∃ w3, drm_kms_page_flip drv w2 0 = some (0, w3) ∧
        w3.trace = trl ++ [DrvCall.PageFlip w.drm.crtc_id b.fb_id, DrvCall.HandleEvent] ∧
        w3.drm.next_front = 0 ∧ w3.drm.current_front = bo := by
      refine ⟨_, page_flip_null _ _, ?_, ?_, ?_⟩
      · rw [hloop3, h3.1, htr2]; simp
      · rw [hloop3]
      · rw [hloop3]; exact hcf3
    obtain ⟨w3, hp3, ht3, hn3, hc3⟩ := hdrained
    by_cases hs : w.drm.mode_sync_flip = true
    · rw [if_pos (hsync.trans hs), hp3]
      exact ⟨w3, htrl, hevl, trivial, rfl, fun h => absurd hret h,
        fun _ => ⟨fun _ => ⟨ht3, hn3, hc3⟩, fun h => absurd (Or.inl hs) h⟩⟩
    · rw [if_neg (fun h => hs (hsync.symm.trans h)), hcur]
      simp only []
      by_cases hu : a.handle.usage &&& GRALLOC_USAGE_SW_WRITE_MASK ≠ 0
      · rw [if_pos hu, hp3]
        exact ⟨w3, htrl, hevl, trivial, rfl, fun h => absurd hret h,
          fun _ => ⟨fun _ => ⟨ht3, hn3, hc3⟩, fun h => absurd (Or.inr hu) h⟩⟩
      · rw [if_neg hu]
        refine ⟨w2, htrl, hevl, trivial, rfl, fun h => absurd hret h,
          fun _ => ⟨fun h => ?_, fun _ => ⟨htr2, hnextbo, hcur2⟩⟩⟩
        rcases h with h | h
        · exact absurd h hs
        · exact absurd h hu
  · -- the flip is refused
    rw [if_pos hret] at hpf
    obtain ⟨w2, hw2⟩ : ∃ w2 : World, w2 =
        { wl with trace := trl ++ [DrvCall.PageFlip w.drm.crtc_id b.fb_id] } := ⟨_, rfl⟩
    rw [← hw2] at hpf
    rw [hpf]
    simp only []
    have hnext : w2.drm.next_front = 0 := by rw [hw2, hwl]
    rw [if_neg (by rw [hnext]; simp)]
    refine ⟨w2, htrl, hevl, trivial, rfl, fun _ => ⟨by rw [hw2], hnext, ?_⟩, fun h => absurd h hret⟩
    rw [hw2, hwl]; exact hcf

/-- C15, as amended. Under flip mode, when every event drain dispatches at
most one flip completion and the buffer being displaced is alive, a non-first
post of a bound buffer `bo` returns, and if its page flip is accepted: when
the driver requires synchronised flips or the buffer being displaced has a
CPU-write usage bit, one more event drain follows the flip, and at return
`next_front` is null and `current_front` is `bo`; otherwise nothing follows
the flip and at return `next_front` is `bo`. The omap backend always requires
synchronised flips. -/
theorem flip_post_sync_drain (drv : Driver) (w : World) (bo : Nat) (b a : gralloc_drm_bo_t)
    (hev : ∀ tr, drv.drmHandleEvent tr ≤ 1)
    (hmode : w.drm.swap_mode = DRM_SWAP_FLIP) (hfirst : w.drm.first_post = false)
    (hb : deref w.heap bo = some b) (hfb : b.fb_id ≠ 0)
    (ha : deref w.heap (front_after_drain w) = some a) :
    (∃ pre ret w1, gralloc_drm_bo_post drv w bo = some (ret, w1) ∧
      ret = drv.drmModePageFlip (pre ++ [DrvCall.PageFlip w.drm.crtc_id b.fb_id]) ∧
      (ret = 0 →
        (w.drm.mode_sync_flip = true ∨ a.handle.usage &&& GRALLOC_USAGE_SW_WRITE_MASK ≠ 0 →
          w1.trace = pre ++ [DrvCall.PageFlip w.drm.crtc_id b.fb_id, DrvCall.HandleEvent] ∧
          w1.drm.next_front = 0 ∧ w1.drm.current_front = bo) ∧
        (¬ (w.drm.mode_sync_flip = true ∨
            a.handle.usage &&& GRALLOC_USAGE_SW_WRITE_MASK ≠ 0) →
          w1.trace = pre ++ [DrvCall.PageFlip w.drm.crtc_id b.fb_id] ∧
          w1.drm.next_front = bo ∧ w1.drm.current_front = front_after_drain w))) ∧
    (∀ d, (omap_init_kms_features d).mode_sync_flip = true ∧
      (omap_init_kms_features d).swap_mode = DRM_SWAP_FLIP) := by
  refine ⟨?_, fun d => ⟨rfl, rfl⟩⟩
  rw [post_flip_branch drv w bo b hmode hfirst hb hfb]
  obtain ⟨pre, ret, w1, -, -, hret, hpost, -, hok⟩ := post_flip_outcome drv w bo b a hev hb ha
  exact ⟨pre, ret, w1, hpost, hret, hok⟩

theorem flip_post_sync_drain_witness :
    (∃ pre ret w1, gralloc_drm_bo_post sample_driver (sync_world DRM_SWAP_FLIP false 1 0) 2 =
        some (ret, w1) ∧
      ret = sample_driver.drmModePageFlip
        (pre ++ [DrvCall.PageFlip (sync_world DRM_SWAP_FLIP false 1 0).drm.crtc_id
          (sample_bo 12 0).fb_id]) ∧
      (ret = 0 →
        ((sync_world DRM_SWAP_FLIP false 1 0).drm.mode_sync_flip = true ∨
            (sample_bo 11 0).handle.usage &&& GRALLOC_USAGE_SW_WRITE_MASK ≠ 0 →
          w1.trace = pre ++ [DrvCall.PageFlip (sync_world DRM_SWAP_FLIP false 1 0).drm.crtc_id
            (sample_bo 12 0).fb_id, DrvCall.HandleEvent] ∧
          w1.drm.next_front = 0 ∧ w1.drm.current_front = 2) ∧
        (¬ ((sync_world DRM_SWAP_FLIP false 1 0).drm.mode_sync_flip = true ∨
            (sample_bo 11 0).handle.usage &&& GRALLOC_USAGE_SW_WRITE_MASK ≠ 0) →
          w1.trace = pre ++ [DrvCall.PageFlip (sync_world DRM_SWAP_FLIP false 1 0).drm.crtc_id
            (sample_bo 12 0).fb_id] ∧
          w1.drm.next_front = 2 ∧
          w1.drm.current_front = front_after_drain (sync_world DRM_SWAP_FLIP false 1 0)))) ∧
    (∀ d, (omap_init_kms_features d).mode_sync_flip = true ∧
      (omap_init_kms_features d).swap_mode = DRM_SWAP_FLIP) :=
  flip_post_sync_drain sample_driver (sync_world DRM_SWAP_FLIP false 1 0) 2
    (sample_bo 12 0) (sample_bo 11 0) (fun _ => le_refl 1) (by decide) (by decide)
    (by decide) (by decide) (by decide)

/-- C15, counterexample. With synchronised flips required and an event drain
that dispatches two flip completions, the post of buffer 2 is accepted and
returns with `current_front` null instead of buffer 2. -/
theorem sync_drain_double_completion :
    (gralloc_drm_bo_post double_event_driver (sync_world DRM_SWAP_FLIP false 1 0) 2).map
      (fun r => (r.1, r.2.drm.current_front, r.2.drm.next_front, r.2.trace)) =
      some (0, 0, 0, [DrvCall.PageFlip 3 12, DrvCall.HandleEvent]) := by
  simp [gralloc_drm_bo_post, gralloc_drm_bo_post_flip, drm_kms_page_flip, page_flip_loop_eq,
    drm_kms_page_flip_body, drmHandleEvent, page_flip_handler, sync_world, double_event_driver,
    sample_world, sample_drm, sample_driver, sample_bo, deref, List.lookup,
    GRALLOC_USAGE_SW_WRITE_MASK]

theorem post_copy_branch (drv : Driver) (w : World) (bo : Nat) (b : gralloc_drm_bo_t)
    (hmode : w.drm.swap_mode = DRM_SWAP_COPY) (hfirst : w.drm.first_post = false)
    (hb : deref w.heap bo = some b) :
    gralloc_drm_bo_post drv w bo = gralloc_drm_bo_post_copy drv w bo b := by
  unfold gralloc_drm_bo_post
  simp [hb, hfirst, hmode]

/-- C16. Under copy mode a non-first post of a live buffer returns 0 for every
driver, that is whatever the vblank requests, the backend copy and the dirty
refresh answer, and leaves `current_front` and `next_front` as they were. After
the pacing calls it issues the copy into `current_front`, followed under the
vmwgfx quirk by the dirty refresh of the framebuffer of `current_front`, whose
result is not looked at. Under the quirk `current_front` is taken to be alive,
as the refresh reads its framebuffer id. -/
theorem copy_post_returns_success (drv : Driver) (w : World) (bo : Nat) (b : gralloc_drm_bo_t)
    (hmode : w.drm.swap_mode = DRM_SWAP_COPY) (hfirst : w.drm.first_post = false)
    (hb : deref w.heap bo = some b)
    (hcf : w.drm.mode_quirk_vmwgfx = true → ∃ a, deref w.heap w.drm.current_front = some a) :
    ∃ w1 pre, gralloc_drm_bo_post drv w bo = some (0, w1) ∧
      w1.drm.current_front = w.drm.current_front ∧ w1.drm.next_front = w.drm.next_front ∧
      pre = (drm_kms_wait_for_post drv w 0).trace ++
        [DrvCall.Copy w.drm.current_front bo 0 0 b.handle.width b.handle.height] ∧
      (w.drm.mode_quirk_vmwgfx = false → w1.trace = pre) ∧
      (w.drm.mode_quirk_vmwgfx = true →
        ∃ a, deref w.heap w.drm.current_front = some a ∧
          w1.trace = pre ++ [DrvCall.DirtyFB a.fb_id]) := by
  rw [post_copy_branch drv w bo b hmode hfirst hb]
  obtain ⟨hheap, hcfg, hcur, hnext⟩ := wait_for_post_fronts drv w 0
  have hquirk := hcfg.2.2.2.1
  unfold gralloc_drm_bo_post_copy
  simp only []
  by_cases hq : w.drm.mode_quirk_vmwgfx = true
  · obtain ⟨a, ha⟩ := hcf hq
    rw [if_pos (hquirk.trans hq), hheap, hcur, ha]
    exact ⟨_, _, rfl, hcur, hnext, rfl, fun h => absurd hq (by rw [h]; simp),
      fun _ => ⟨a, rfl, rfl⟩⟩
  · rw [if_neg (fun h => hq (hquirk.symm.trans h)), hcur]
    exact ⟨_, _, rfl, hcur, hnext, rfl, fun _ => rfl, fun h => absurd h hq⟩

theorem copy_post_returns_success_witness :
    ∃ w1 pre, gralloc_drm_bo_post failing_refresh_driver (quirk_world DRM_SWAP_COPY false 2 0) 1 =
        some (0, w1) ∧
      w1.drm.current_front = (quirk_world DRM_SWAP_COPY false 2 0).drm.current_front ∧
      w1.drm.next_front = (quirk_world DRM_SWAP_COPY false 2 0).drm.next_front ∧
      pre = (drm_kms_wait_for_post failing_refresh_driver
          (quirk_world DRM_SWAP_COPY false 2 0) 0).trace ++
        [DrvCall.Copy (quirk_world DRM_SWAP_COPY false 2 0).drm.current_front 1 0 0
          (sample_bo 11 0).handle.width (sample_bo 11 0).handle.height] ∧
      ((quirk_world DRM_SWAP_COPY false 2 0).drm.mode_quirk_vmwgfx = false → w1.trace = pre) ∧
      ((quirk_world DRM_SWAP_COPY false 2 0).drm.mode_quirk_vmwgfx = true →
        ∃ a, deref (quirk_world DRM_SWAP_COPY false 2 0).heap
            (quirk_world DRM_SWAP_COPY false 2 0).drm.current_front = some a ∧
          w1.trace = pre ++ [DrvCall.DirtyFB a.fb_id]) :=
  copy_post_returns_success failing_refresh_driver (quirk_world DRM_SWAP_COPY false 2 0) 1
    (sample_bo 11 0) (by decide) (by decide) (by decide) (fun _ => ⟨sample_bo 12 0, by decide⟩)

theorem wait_failed_frame (drv : Driver) (w : World) (tr1 : List DrvCall)
    (flip current target : Nat)
    (hans : (drv.drmWaitVBlank
      (drm_kms_wait_for_post_wait drv w tr1 flip current target).trace).1 ≠ 0) :
    (drm_kms_wait_for_post_wait drv w tr1 flip current target).drm = w.drm := by
  generalize hX : drm_kms_wait_for_post_wait drv w tr1 flip current target = X at hans
  unfold drm_kms_wait_for_post_wait at hX
  simp only [] at hX
  split_ifs at hX <;> subst hX <;>
    first
    | rfl
    | exact absurd hans (by assumption)

theorem pacing_failed_frame (drv : Driver) (w : World) (flip : Int)
    (h : pacing_failed drv w flip) :
    w.drm.mode_quirk_vmwgfx = false ∧
    (drm_kms_wait_for_post drv w flip).drm = w.drm := by
  obtain ⟨hne, hans⟩ := h
  have hq : w.drm.mode_quirk_vmwgfx = false := by
    cases hq' : w.drm.mode_quirk_vmwgfx with
    | false => rfl
    | true =>
      have hw : drm_kms_wait_for_post drv w flip = w := by
        unfold drm_kms_wait_for_post
        simp [hq']
      rw [hw] at hne
      exact absurd rfl hne
  refine ⟨hq, ?_⟩
  generalize hX : drm_kms_wait_for_post drv w flip = X at hne hans
  unfold drm_kms_wait_for_post at hX
  simp only [] at hX
  split_ifs at hX <;> subst hX <;>
    first
    | rfl
    | exact absurd rfl hne
    | exact wait_failed_frame _ _ _ _ _ _ hans
    | exact absurd hans (by assumption)

theorem set_crtc_plain (drv : Driver) (w : World) (fb : Nat)
    (hq : w.drm.mode_quirk_vmwgfx = false) :
    drm_kms_set_crtc drv w fb =
      (drv.drmModeSetCrtc (w.trace ++ [DrvCall.SetCrtc w.drm.crtc_id fb w.drm.connector_id]),
        { w with trace := w.trace ++ [DrvCall.SetCrtc w.drm.crtc_id fb w.drm.connector_id] }) := by
  unfold drm_kms_set_crtc
  simp only [hq]
  split_ifs <;> simp_all

/-- C17. When the pacing call of a non-first post fails (the vblank query or
the blocking vblank wait is refused), `drm_kms_wait_for_post` leaves every
field of the handle, `last_swap` included, and the buffers unchanged, and the
enclosing post of a live buffer (bound, or unbound under copy mode) goes on:
under copy mode it issues the copy right after the pacing calls and returns 0;
under set-crtc mode it issues the set-crtc call right after the pacing calls
and returns the answer to that call; under flip mode with a swap interval
above 1 (each event drain dispatching at most one flip completion, the
displaced buffer alive) it issues the page flip after the pacing calls and at
most one event drain, and returns the answer to the page flip. -/
theorem pacing_failure_not_propagated (drv : Driver) (w : World) (bo : Nat)
    (b : gralloc_drm_bo_t) (hfirst : w.drm.first_post = false)
    (hb : deref w.heap bo = some b)
    (hfb : b.fb_id = 0 → w.drm.swap_mode = DRM_SWAP_COPY)
    (hfail : pacing_failed drv w (pacing_flip w)) :
    (drm_kms_wait_for_post drv w (pacing_flip w)).drm = w.drm ∧
    (drm_kms_wait_for_post drv w (pacing_flip w)).heap = w.heap ∧
    (w.drm.swap_mode = DRM_SWAP_COPY →
      gralloc_drm_bo_post drv w bo = some (0, { w with
        trace := (drm_kms_wait_for_post drv w 0).trace ++
          [DrvCall.Copy w.drm.current_front bo 0 0 b.handle.width b.handle.height] })) ∧
    (w.drm.swap_mode = DRM_SWAP_SETCRTC →
      gralloc_drm_bo_post drv w bo = some
        (drv.drmModeSetCrtc ((drm_kms_wait_for_post drv w 0).trace ++
            [DrvCall.SetCrtc w.drm.crtc_id b.fb_id w.drm.connector_id]),
          { w with
            trace := (drm_kms_wait_for_post drv w 0).trace ++
              [DrvCall.SetCrtc w.drm.crtc_id b.fb_id w.drm.connector_id],
            drm := { w.drm with current_front := bo } })) ∧
    (w.drm.swap_mode = DRM_SWAP_FLIP → w.drm.swap_interval > 1 →
      (∀ tr, drv.drmHandleEvent tr ≤ 1) →
      ∀ a, deref w.heap (front_after_drain w) = some a →
        ∃ ev ret w1, gralloc_drm_bo_post drv w bo = some (ret, w1) ∧
          (ev = [] ∨ ev = [DrvCall.HandleEvent]) ∧
          ret = drv.drmModePageFlip ((drm_kms_wait_for_post drv w 1).trace ++ ev ++
            [DrvCall.PageFlip w.drm.crtc_id b.fb_id]) ∧
          ((drm_kms_wait_for_post drv w 1).trace ++ ev ++
            [DrvCall.PageFlip w.drm.crtc_id b.fb_id]) <+: w1.trace) := by
  obtain ⟨hq, hdrm⟩ := pacing_failed_frame drv w _ hfail
  obtain ⟨hheap, hsing, -⟩ := wait_for_post_frame drv w (pacing_flip w)
  refine ⟨hdrm, hheap, ?_, ?_, ?_⟩
  · intro hmode
    have hflip : pacing_flip w = 0 := by unfold pacing_flip; simp [hmode]
    rw [hflip] at hdrm hheap hsing
    rw [post_copy_branch drv w bo b hmode hfirst hb]
    unfold gralloc_drm_bo_post_copy
    simp only [hdrm, hq, hheap, hsing]
    rfl
  · intro hmode
    have hflip : pacing_flip w = 0 := by unfold pacing_flip; simp [hmode]
    rw [hflip] at hdrm hheap hsing
    have hfb' : b.fb_id ≠ 0 := fun h0 => by
      have := hfb h0
      rw [hmode] at this
      exact absurd this (by decide)
    have hpost : gralloc_drm_bo_post drv w bo = gralloc_drm_bo_post_setcrtc drv w bo b := by
      unfold gralloc_drm_bo_post
      simp [hb, hfb', hfirst, hmode]
    rw [hpost]
    unfold gralloc_drm_bo_post_setcrtc
    simp only []
    rw [set_crtc_plain drv _ _ (by rw [hdrm]; exact hq)]
    simp only [hdrm, hheap, hsing]
  · intro hmode hint hev a ha
    have hfb' : b.fb_id ≠ 0 := fun h0 => by
      have := hfb h0
      rw [hmode] at this
      exact absurd this (by decide)
    rw [post_flip_branch drv w bo b hmode hfirst hb hfb']
    obtain ⟨pre, ret, w1, -, ⟨ev, hpre, hev'⟩, hret, hpost, hbad, hok⟩ :=
      post_flip_outcome drv w bo b a hev hb ha
    rw [if_pos hint] at hpre
    refine ⟨ev, ret, w1, hpost, hev', by rw [hret, hpre], ?_⟩
    rw [← hpre]
    by_cases hr : ret = 0
    · by_cases hs : w.drm.mode_sync_flip = true ∨
          a.handle.usage &&& GRALLOC_USAGE_SW_WRITE_MASK ≠ 0
      · rw [((hok hr).1 hs).1]
        exact ⟨[DrvCall.HandleEvent], by simp⟩
      · rw [((hok hr).2 hs).1]
    · rw [(hbad hr).1]

theorem pacing_failure_not_propagated_witness :
    (drm_kms_wait_for_post failing_vblank_driver (sample_world DRM_SWAP_COPY false 1 0) (pacing_flip (sample_world DRM_SWAP_COPY false 1 0))).drm = (sample_world DRM_SWAP_COPY false 1 0).drm ∧
    (drm_kms_wait_for_post failing_vblank_driver (sample_world DRM_SWAP_COPY false 1 0) (pacing_flip (sample_world DRM_SWAP_COPY false 1 0))).heap = (sample_world DRM_SWAP_COPY false 1 0).heap ∧
    ((sample_world DRM_SWAP_COPY false 1 0).drm.swap_mode = DRM_SWAP_COPY →
      gralloc_drm_bo_post failing_vblank_driver (sample_world DRM_SWAP_COPY false 1 0) 3 =
        some (0, { (sample_world DRM_SWAP_COPY false 1 0) with
          trace := (drm_kms_wait_for_post failing_vblank_driver (sample_world DRM_SWAP_COPY false 1 0) 0).trace ++
            [DrvCall.Copy (sample_world DRM_SWAP_COPY false 1 0).drm.current_front 3 0 0
              (sample_bo 0 0).handle.width (sample_bo 0 0).handle.height] })) ∧
    ((sample_world DRM_SWAP_COPY false 1 0).drm.swap_mode = DRM_SWAP_SETCRTC →
      gralloc_drm_bo_post failing_vblank_driver (sample_world DRM_SWAP_COPY false 1 0) 3 = some
        (failing_vblank_driver.drmModeSetCrtc
          ((drm_kms_wait_for_post failing_vblank_driver (sample_world DRM_SWAP_COPY false 1 0) 0).trace ++
            [DrvCall.SetCrtc (sample_world DRM_SWAP_COPY false 1 0).drm.crtc_id (sample_bo 0 0).fb_id (sample_world DRM_SWAP_COPY false 1 0).drm.connector_id]),
          { (sample_world DRM_SWAP_COPY false 1 0) with
            trace := (drm_kms_wait_for_post failing_vblank_driver (sample_world DRM_SWAP_COPY false 1 0) 0).trace ++
              [DrvCall.SetCrtc (sample_world DRM_SWAP_COPY false 1 0).drm.crtc_id (sample_bo 0 0).fb_id (sample_world DRM_SWAP_COPY false 1 0).drm.connector_id],
            drm := { (sample_world DRM_SWAP_COPY false 1 0).drm with current_front := 3 } })) ∧
    ((sample_world DRM_SWAP_COPY false 1 0).drm.swap_mode = DRM_SWAP_FLIP →
      (sample_world DRM_SWAP_COPY false 1 0).drm.swap_interval > 1 →
      (∀ tr, failing_vblank_driver.drmHandleEvent tr ≤ 1) →
      ∀ a, deref (sample_world DRM_SWAP_COPY false 1 0).heap (front_after_drain (sample_world DRM_SWAP_COPY false 1 0)) = some a →
        ∃ ev ret w1,
          gralloc_drm_bo_post failing_vblank_driver (sample_world DRM_SWAP_COPY false 1 0) 3 = some (ret, w1) ∧
          (ev = [] ∨ ev = [DrvCall.HandleEvent]) ∧
          ret = failing_vblank_driver.drmModePageFlip
            ((drm_kms_wait_for_post failing_vblank_driver (sample_world DRM_SWAP_COPY false 1 0) 1).trace ++ ev ++
              [DrvCall.PageFlip (sample_world DRM_SWAP_COPY false 1 0).drm.crtc_id (sample_bo 0 0).fb_id]) ∧
          ((drm_kms_wait_for_post failing_vblank_driver (sample_world DRM_SWAP_COPY false 1 0) 1).trace ++ ev ++
              [DrvCall.PageFlip (sample_world DRM_SWAP_COPY false 1 0).drm.crtc_id (sample_bo 0 0).fb_id]) <+: w1.trace) :=
  pacing_failure_not_propagated failing_vblank_driver (sample_world DRM_SWAP_COPY false 1 0) 3
    (sample_bo 0 0) (by decide) (by decide) (fun _ => by decide)
    (show _ ∧ _ from ⟨by decide, by decide⟩)

/-- The post of the unbound buffer 3 under copy mode with every vblank request
refused: one refused vblank query, then the copy into the front buffer 1, and
the return value 0; `last_swap` and the front buffers are what they were. -/
theorem copy_post_unbound_unpaced :
    gralloc_drm_bo_post failing_vblank_driver (sample_world DRM_SWAP_COPY false 1 0) 3 =
      some (0, { sample_world DRM_SWAP_COPY false 1 0 with
        trace := [DrvCall.WaitVBlank 1 0, DrvCall.Copy 1 3 0 0 1920 1080] }) := by
  decide

/-- The post of buffer 2 under set-crtc mode with every vblank request
refused: one refused vblank query, then the set-crtc call, and its answer 0;
`last_swap` is what it was. -/
theorem setcrtc_post_unpaced :
    gralloc_drm_bo_post failing_vblank_driver (sample_world DRM_SWAP_SETCRTC false 1 0) 2 =
      some (0, { sample_world DRM_SWAP_SETCRTC false 1 0 with
        trace := [DrvCall.WaitVBlank 1 0, DrvCall.SetCrtc 3 12 4],
        drm := { sample_drm DRM_SWAP_SETCRTC false 1 0 with current_front := 2 } }) := by
  decide

/-- The post of buffer 2 on `paced_world` under flip mode with every vblank
request refused: one refused vblank query, then the page flip, and the
return value 0 of the page flip. -/
theorem paced_flip_post_unpaced :
    (gralloc_drm_bo_post failing_vblank_driver (paced_world DRM_SWAP_FLIP false 1 0) 2).map
      (fun r => (r.1, r.2.drm.last_swap, r.2.drm.next_front, r.2.trace)) =
      some (0, 0, 2, [DrvCall.WaitVBlank 1 0, DrvCall.PageFlip 3 12]) := by
  simp [gralloc_drm_bo_post, gralloc_drm_bo_post_flip, drm_kms_page_flip, page_flip_loop_eq,
    drm_kms_wait_for_post, paced_world, failing_vblank_driver,
    sample_world, sample_drm, sample_driver, sample_bo, deref, List.lookup,
    GRALLOC_USAGE_SW_WRITE_MASK, DRM_VBLANK_RELATIVE]

/-- C18, as amended. The drain loop of `drm_kms_page_flip` is total and runs
its body at most once, for every state and every behaviour of the event
stream: it is the identity when no flip is pending and one pass of the body
otherwise. After it `next_front` is null. When a flip was pending, exactly one
event drain is issued, and `current_front` is the buffer that was `next_front`
if that drain dispatches at most one flip completion, and null if it
dispatches two or more. -/
theorem page_flip_loop_one_pass (drv : Driver) (w : World) :
    drm_kms_page_flip_loop drv w =
      (if w.drm.next_front ≠ 0 then drm_kms_page_flip_body drv w else w) ∧
    (drm_kms_page_flip_loop drv w).drm.next_front = 0 ∧
    (w.drm.next_front ≠ 0 →
      (drm_kms_page_flip_loop drv w).trace = w.trace ++ [DrvCall.HandleEvent] ∧
      (drm_kms_page_flip_loop drv w).drm.current_front =
        if drv.drmHandleEvent (w.trace ++ [DrvCall.HandleEvent]) ≤ 1 then w.drm.next_front
        else 0) := by
  refine ⟨page_flip_loop_eq drv w, (page_flip_loop_fronts drv w).2.2.1, ?_⟩
  intro h
  rw [page_flip_loop_eq, if_pos h, page_flip_body_eq drv w h]
  exact ⟨rfl, rfl⟩

/-- C18, counterexample. With buffer 2 pending and an event drain that
dispatches two flip completions, one pass of the drain loop leaves
`current_front` null instead of buffer 2. -/
theorem drain_double_completion_null_front :
    (drm_kms_page_flip_loop double_event_driver flip_pending_world).drm.current_front = 0 ∧
    (drm_kms_page_flip_loop double_event_driver flip_pending_world).drm.next_front = 0 ∧
    flip_pending_world.drm.next_front = 2 := by
  simp [page_flip_loop_eq, drm_kms_page_flip_body, drmHandleEvent, page_flip_handler,
    flip_pending_world, double_event_driver, sample_world, sample_drm, sample_driver]

/-! ## The front buffer after the first post, in every swap mode -/

theorem first_post_sets_front (drv : Driver) (w w1 : World) (bo : Nat)
    (hfirst : w.drm.first_post = true)
    (hpost : gralloc_drm_bo_post drv w bo = some (0, w1)) :
    w1.drm.first_post = false ∧ w1.drm.current_front ≠ 0 := by
  unfold gralloc_drm_bo_post at hpost
  cases hb : deref w.heap bo with
  | none => rw [hb] at hpost; exact absurd hpost (by simp)
  | some b =>
    rw [hb] at hpost
    simp only [] at hpost
    by_cases hguard : b.fb_id = 0 ∧ w.drm.swap_mode ≠ DRM_SWAP_COPY
    · rw [if_pos hguard] at hpost
      simp [EINVAL] at hpost
    · rw [if_neg hguard, if_pos hfirst, post_first_eq] at hpost
      cases ht : deref w.heap (first_post_target w bo) with
      | none => rw [ht] at hpost; exact absurd hpost (by simp)
      | some b1 =>
        rw [ht] at hpost
        simp only [] at hpost
        generalize drm_kms_set_crtc drv _ b1.fb_id = r at hpost
        by_cases hr : r.1 = 0
        · rw [if_pos hr] at hpost
          simp only [Option.some.injEq, Prod.mk.injEq] at hpost
          obtain ⟨-, hw⟩ := hpost
          subst hw
          exact ⟨rfl, deref_ne_zero ht⟩
        · rw [if_neg hr] at hpost
          simp only [Option.some.injEq] at hpost
          rw [hpost] at hr
          exact absurd rfl hr

theorem next_post_keeps_front (drv : Driver) (hev : ∀ tr, drv.drmHandleEvent tr ≤ 1)
    (w w1 : World) (bo : Nat) (ret : Int)
    (hfirst : w.drm.first_post = false) (hcur : w.drm.current_front ≠ 0)
    (hpost : gralloc_drm_bo_post drv w bo = some (ret, w1)) :
    w1.drm.first_post = false ∧ w1.drm.current_front ≠ 0 := by
  have hfront : front_after_drain w ≠ 0 := by
    unfold front_after_drain
    split
    · assumption
    · exact hcur
  unfold gralloc_drm_bo_post at hpost
  cases hb : deref w.heap bo with
  | none => rw [hb] at hpost; exact absurd hpost (by simp)
  | some b =>
    rw [hb] at hpost
    simp only [] at hpost
    have hbo : bo ≠ 0 := deref_ne_zero hb
    by_cases hguard : b.fb_id = 0 ∧ w.drm.swap_mode ≠ DRM_SWAP_COPY
    · rw [if_pos hguard] at hpost
      simp only [Option.some.injEq, Prod.mk.injEq] at hpost
      obtain ⟨-, hw⟩ := hpost
      subst hw
      exact ⟨hfirst, hcur⟩
    · rw [if_neg hguard, if_neg (by rw [hfirst]; simp)] at hpost
      cases hmode : w.drm.swap_mode with
      | DRM_SWAP_NOOP =>
        rw [hmode] at hpost
        simp only [Option.some.injEq, Prod.mk.injEq] at hpost
        obtain ⟨-, hw⟩ := hpost
        subst hw
        exact ⟨hfirst, hcur⟩
      | DRM_SWAP_FLIP =>
        rw [hmode] at hpost
        simp only [] at hpost
        obtain ⟨-, hcfg, hbad, hok⟩ := post_flip_fronts drv w bo ret w1 hev hpost
        refine ⟨hcfg.2.1.trans hfirst, ?_⟩
        by_cases hr : ret = 0
        · rcases hok hr with h | h
          · rw [h.2]; exact hfront
          · rw [h.2.2]; exact hbo
        · rw [(hbad hr).2]; exact hfront
      | DRM_SWAP_COPY =>
        rw [hmode] at hpost
        simp only [] at hpost
        obtain ⟨hheap, hcfg, hc, -⟩ := wait_for_post_fronts drv w 0
        unfold gralloc_drm_bo_post_copy at hpost
        simp only [] at hpost
        split at hpost
        · split at hpost
          · exact absurd hpost (by simp)
          · simp only [Option.some.injEq, Prod.mk.injEq] at hpost
            obtain ⟨-, hw⟩ := hpost
            subst hw
            exact ⟨hcfg.2.1.trans hfirst, by rw [hc]; exact hcur⟩
        · simp only [Option.some.injEq, Prod.mk.injEq] at hpost
          obtain ⟨-, hw⟩ := hpost
          subst hw
          exact ⟨hcfg.2.1.trans hfirst, by rw [hc]; exact hcur⟩
      | DRM_SWAP_SETCRTC =>
        rw [hmode] at hpost
        simp only [] at hpost
        obtain ⟨-, hcfg, -, -⟩ := wait_for_post_fronts drv w 0
        unfold gralloc_drm_bo_post_setcrtc at hpost
        simp only [Option.some.injEq, Prod.mk.injEq] at hpost
        obtain ⟨-, hw⟩ := hpost
        obtain ⟨tail, hst, -, -⟩ := set_crtc_spec drv (drm_kms_wait_for_post drv w 0) b.fb_id
        subst hw
        refine ⟨?_, hbo⟩
        show (drm_kms_set_crtc drv _ b.fb_id).2.drm.first_post = false
        rw [hst]
        exact hcfg.2.1.trans hfirst

theorem after_first_post_front (drv : Driver) (hev : ∀ tr, drv.drmHandleEvent tr ≤ 1)
    (w : World) (h : AfterFirstPost drv w) :
    w.drm.first_post = false ∧ w.drm.current_front ≠ 0 := by
  induction h with
  | first w w1 bo hfirst hpost => exact first_post_sets_front drv w w1 bo hfirst hpost
  | next w w1 bo ret _ hpost ih =>
    exact next_post_keeps_front drv hev w w1 bo ret ih.1 ih.2 hpost

/-- C19. When each event drain dispatches at most one flip completion, every
state reached by a successful first post followed by any number of posts, in
any swap mode, has the first-post flag cleared and a non-null `current_front`
(so the buffer on screen once a pending flip is retired is non-null too). In
such a state the two reads of `current_front` are reads of a non-null
pointer: the copy branch reads it right after its pacing call, the flip branch
after its pacing call and its page flip. -/
theorem current_front_stays_non_null (drv : Driver) (hev : ∀ tr, drv.drmHandleEvent tr ≤ 1)
    (w : World) (h : AfterFirstPost drv w) :
    w.drm.first_post = false ∧ w.drm.current_front ≠ 0 ∧ front_after_drain w ≠ 0 ∧
    (drm_kms_wait_for_post drv w 0).drm.current_front ≠ 0 ∧
    (∀ bo ret w2,
      drm_kms_page_flip drv
        (if w.drm.swap_interval > 1 then drm_kms_wait_for_post drv w 1 else w) bo =
          some (ret, w2) →
      w2.drm.current_front ≠ 0) := by
  obtain ⟨hfirst, hcur⟩ := after_first_post_front drv hev w h
  have hfront : front_after_drain w ≠ 0 := by
    unfold front_after_drain
    split
    · assumption
    · exact hcur
  refine ⟨hfirst, hcur, hfront, ?_, ?_⟩
  · rw [(wait_for_post_fronts drv w 0).2.2.1]; exact hcur
  · intro bo ret w2 hpf
    obtain ⟨w0, hw0, -, -, -, -, h0front⟩ := pacing_before_flip drv w
    rw [← hw0] at hpf
    rw [(page_flip_fronts drv w0 bo ret w2 hpf).2.2.2 hev, h0front]
    exact hfront

theorem current_front_stays_non_null_witness :
    first_posted_world.drm.first_post = false ∧ first_posted_world.drm.current_front ≠ 0 ∧
    front_after_drain first_posted_world ≠ 0 ∧
    (drm_kms_wait_for_post sample_driver first_posted_world 0).drm.current_front ≠ 0 ∧
    (∀ bo ret w2,
      drm_kms_page_flip sample_driver
        (if first_posted_world.drm.swap_interval > 1
          then drm_kms_wait_for_post sample_driver first_posted_world 1
          else first_posted_world) bo = some (ret, w2) →
      w2.drm.current_front ≠ 0) :=
  current_front_stays_non_null sample_driver (fun _ => le_refl 1) first_posted_world
    (AfterFirstPost.first (sample_world DRM_SWAP_FLIP true 0 0) first_posted_world 1
      (by decide) (by decide))

end GrallocDrm
